import Mathlib

/-!
# bech32-ibc: the bank message server of `x/bech32ics20`

A shallow embedding of `x/bech32ics20/keeper/msg_server.go`.

`Send` and `MultiSend` are orchestration code: they call the bank keeper, the
hrp-to-channel mapper, the IBC channel keeper and the ics20 transfer message
server.  Those collaborators are not part of the file, so they are the fields
of a `Keeper` record, over an arbitrary type `σ` of ledger states (what the
Go code reaches through `ctx`).  Getters read the state; `SendCoins`,
`InputOutputCoins` and the ics20 `Transfer` may change it.

Every collaborator call is appended to a call log, in program order with its
arguments, so that "is invoked exactly once" and "is never invoked" are
properties of the value a handler returns.  A panic of `MultiSend` is one of
the ways its call can end (`Completion.panicked`).

Unsigned 64-bit quantities are natural numbers; the one arithmetic operation
of the file, the `uint64` addition of line 108, is reduced modulo `2 ^ 64`.
-/

namespace Bech32ics20

/-! ## Data model -/

/-- The modulus of Go's `uint64` arithmetic. -/
def uint64Size : Nat := 2 ^ 64

/-- Go's `+` on `uint64`: addition that wraps around at `2 ^ 64`. -/
def uint64Add (a b : Nat) : Nat := (a + b) % uint64Size

/-- An `sdk.AccAddress`: the raw bytes of an account address. -/
abbrev AccAddress := List Nat

/-- An `sdk.Coin`: a denomination and an `sdk.Int` amount. -/
structure Coin where
  denom : String
  amount : Int
  deriving DecidableEq, Repr

/-- An `sdk.Coins` value: a slice of coins. -/
abbrev Coins := List Coin

/-- `Coins.Len`: the number of coins in the slice. -/
def Coins.Len (coins : Coins) : Nat := coins.length

/-- The registered sentinel errors the file wraps. -/
inductive Sentinel where
  | ErrUnauthorized
  | ErrNoInputs
  | ErrInvalidAmount
  deriving DecidableEq, Repr

/-- A Go `error` value: either a sentinel wrapped with a description, as
`sdkerrors.Wrap` and `sdkerrors.Wrapf` build it, or an error produced by a
collaborator, identified by its text. -/
inductive Err where
  | wrapped (sentinel : Sentinel) (description : String)
  | collaborator (text : String)
  deriving DecidableEq, Repr

deriving instance DecidableEq for Except

/-- `sdkerrors.Wrap`. -/
def Wrap (sentinel : Sentinel) (description : String) : Err :=
  Err.wrapped sentinel description

/-- `sdkerrors.Wrapf` with a format of the shape `"%s" ++ rest` and one
string argument. -/
def Wrapf (sentinel : Sentinel) (arg rest : String) : Err :=
  Err.wrapped sentinel (arg ++ rest)

/-- A `clienttypes.Height`: revision number and revision height, both
`uint64`. -/
structure Height where
  revisionNumber : Nat
  revisionHeight : Nat
  deriving DecidableEq, Repr

/-- `clienttypes.NewHeight`. -/
def NewHeight (revisionNumber revisionHeight : Nat) : Height :=
  { revisionNumber := revisionNumber, revisionHeight := revisionHeight }

/-- The part of an IBC client state the file reads: its latest height. -/
structure ClientState where
  latestHeight : Height
  deriving DecidableEq, Repr

/-- `ClientState.GetLatestHeight`. -/
def ClientState.GetLatestHeight (cs : ClientState) : Height := cs.latestHeight

/-- The fields of an `HrpIbcRecord` the file reads. -/
structure HrpIbcRecord where
  SourceChannel : String
  IcsToHeightOffset : Nat
  deriving DecidableEq, Repr

/-- A `banktypes.MsgSend`. -/
structure MsgSend where
  FromAddress : String
  ToAddress : String
  Amount : Coins
  deriving DecidableEq, Repr

/-- A `banktypes.Input` or `banktypes.Output`: an address and its coins. -/
structure InOut where
  Address : String
  Coins : Coins
  deriving DecidableEq, Repr

/-- A `banktypes.MsgMultiSend`. -/
structure MsgMultiSend where
  Inputs : List InOut
  Outputs : List InOut
  deriving DecidableEq, Repr

/-- An `ibctransfertypes.MsgTransfer`. -/
structure MsgTransfer where
  SourcePort : String
  SourceChannel : String
  Token : Coin
  Sender : String
  Receiver : String
  TimeoutHeight : Height
  TimeoutTimestamp : Nat
  deriving DecidableEq, Repr

/-- `ibctransfertypes.NewMsgTransfer`. -/
def NewMsgTransfer (sourcePort sourceChannel : String) (token : Coin)
    (sender receiver : String) (timeoutHeight : Height) (timeoutTimestamp : Nat) :
    MsgTransfer :=
  { SourcePort := sourcePort, SourceChannel := sourceChannel, Token := token,
    Sender := sender, Receiver := receiver, TimeoutHeight := timeoutHeight,
    TimeoutTimestamp := timeoutTimestamp }

/-- An `sdk.Event`: a type and its attributes. -/
structure Event where
  type : String
  attributes : List (String × String)
  deriving DecidableEq, Repr

/-- `sdk.EventTypeMessage`. -/
def EventTypeMessage : String := "message"

/-- `sdk.AttributeKeyModule`. -/
def AttributeKeyModule : String := "module"

/-- `banktypes.AttributeValueCategory`. -/
def AttributeValueCategory : String := "bank"

/-- The event both handlers emit on success:
`sdk.NewEvent(sdk.EventTypeMessage, sdk.NewAttribute(sdk.AttributeKeyModule, banktypes.AttributeValueCategory))`. -/
def messageEvent : Event :=
  { type := EventTypeMessage, attributes := [(AttributeKeyModule, AttributeValueCategory)] }

/-- `sdk.Int.IsInt64`: the amount fits a signed 64-bit integer. -/
def IsInt64 (n : Int) : Bool := decide (-(2 ^ 63 : Int) ≤ n) && decide (n < (2 ^ 63 : Int))

/-! ## Collaborators and the call log -/

/-- One call of a collaborator, with its arguments. -/
inductive Call where
  | IsSendEnabledCoins (coins : Coins)
  | AccAddressFromBech32 (address : String)
  | DecodeAndConvert (address : String)
  | GetNativeHrp
  | BlockedAddr (addr : AccAddress)
  | SendCoins (sender recipient : AccAddress) (amt : Coins)
  | SetGaugeWithLabels (denom : String) (value : Int)
  | EmitEvent (event : Event)
  | GetHrpIbcRecord (hrp : String)
  | GetPort
  | GetChannelClientState (portId channelId : String)
  | Transfer (msg : MsgTransfer)
  | InputOutputCoins (inputs outputs : List InOut)
  deriving DecidableEq, Repr

/-- The collaborators of the message server, over ledger states `σ`.
A function that returns only a Go `error` returns `Option Err` (`none` is
`nil`); one that returns a value and an `error` returns `Except Err _`. -/
structure Keeper (σ : Type) where
  /-- `k.IsSendEnabledCoins(ctx, coins...)`. -/
  IsSendEnabledCoins : σ → Coins → Option Err
  /-- `sdk.AccAddressFromBech32(address)`. -/
  AccAddressFromBech32 : String → Except Err AccAddress
  /-- `bech32.DecodeAndConvert(address)`: the human-readable part and the bytes. -/
  DecodeAndConvert : String → Except Err (String × List Nat)
  /-- `AccAddress.String`. -/
  addrString : AccAddress → String
  /-- `k.hrpToChannelMapper.GetNativeHrp(ctx)`. -/
  GetNativeHrp : σ → Except Err String
  /-- `k.hrpToChannelMapper.GetHrpIbcRecord(ctx, hrp)`. -/
  GetHrpIbcRecord : σ → String → Except Err HrpIbcRecord
  /-- `k.BlockedAddr(addr)`. -/
  BlockedAddr : AccAddress → Bool
  /-- `k.SendCoins(ctx, from, to, amt)`. -/
  SendCoins : σ → AccAddress → AccAddress → Coins → Option Err × σ
  /-- `k.InputOutputCoins(ctx, inputs, outputs)`. -/
  InputOutputCoins : σ → List InOut → List InOut → Option Err × σ
  /-- `k.tk.GetPort(ctx)`. -/
  GetPort : σ → String
  /-- `k.channelKeeper.GetChannelClientState(ctx, portId, channelId)`: the
  client id and the client state. -/
  GetChannelClientState : σ → String → String → Except Err (String × ClientState)
  /-- `k.ics20TransferMsgServer.Transfer(ctx, msg)`; its response is dropped. -/
  Transfer : σ → MsgTransfer → Option Err × σ

/-- What a call of `Send` leaves behind: the response pointer (`none` is
`nil`), the error (`none` is `nil`), the collaborator calls made, in order,
and the ledger state after the call. -/
structure Outcome (σ : Type) where
  resp : Option Unit
  err : Option Err
  calls : List Call
  state : σ

/-! ## `Send` -/

/-- The deferred telemetry loop of `Send` (lines 67-77): one gauge per coin
whose amount fits an `int64`.  The value logged is `a.Amount.Int64()`, the
integer that line 72 converts to `float32`; the rounding of that conversion
is not modelled. -/
def gaugeCalls (amt : Coins) : List Call :=
  (amt.filter fun a => IsInt64 a.amount).map fun a => Call.SetGaugeWithLabels a.denom a.amount

/-- `msgServer.Send` (lines 29-122).  The two tests on `msg.Amount.Len()` and the
indexing `msg.Amount[0]` of lines 94-113 are the three cases of the match on
`msg.Amount`: no coin, two coins or more, exactly one coin. -/
def Send {σ : Type} (k : Keeper σ) (ctx : σ) (msg : MsgSend) : Outcome σ :=
  let t0 : List Call := [Call.IsSendEnabledCoins msg.Amount]
  match k.IsSendEnabledCoins ctx msg.Amount with
  | some err => { resp := none, err := some err, calls := t0, state := ctx }
  | none =>
    let t1 := t0 ++ [Call.AccAddressFromBech32 msg.FromAddress]
    match k.AccAddressFromBech32 msg.FromAddress with
    | .error err => { resp := none, err := some err, calls := t1, state := ctx }
    | .ok sender =>
      let t2 := t1 ++ [Call.DecodeAndConvert msg.ToAddress]
      match k.DecodeAndConvert msg.ToAddress with
      | .error err => { resp := none, err := some err, calls := t2, state := ctx }
      | .ok (hrp, _) =>
        let t3 := t2 ++ [Call.GetNativeHrp]
        match k.GetNativeHrp ctx with
        | .error err => { resp := none, err := some err, calls := t3, state := ctx }
        | .ok nativeHrp =>
          if hrp = nativeHrp then
            let t4 := t3 ++ [Call.AccAddressFromBech32 msg.ToAddress]
            match k.AccAddressFromBech32 msg.ToAddress with
            | .error err => { resp := none, err := some err, calls := t4, state := ctx }
            | .ok recipient =>
              let t5 := t4 ++ [Call.BlockedAddr recipient]
              if k.BlockedAddr recipient then
                { resp := none,
                  err := some (Wrapf Sentinel.ErrUnauthorized msg.ToAddress
                    " is not allowed to receive funds"),
                  calls := t5, state := ctx }
              else
                let t6 := t5 ++ [Call.SendCoins sender recipient msg.Amount]
                match k.SendCoins ctx sender recipient msg.Amount with
                | (some err, ctx1) =>
                  { resp := none, err := some err, calls := t6, state := ctx1 }
                | (none, ctx1) =>
                  { resp := some (), err := none,
                    calls := t6 ++ [Call.EmitEvent messageEvent] ++ gaugeCalls msg.Amount,
                    state := ctx1 }
          else
            let t4 := t3 ++ [Call.GetHrpIbcRecord hrp]
            match k.GetHrpIbcRecord ctx hrp with
            | .error err => { resp := none, err := some err, calls := t4, state := ctx }
            | .ok ibcRecord =>
              match msg.Amount with
              | [] =>
                { resp := none,
                  err := some (Wrap Sentinel.ErrNoInputs "invalid send amount"),
                  calls := t4, state := ctx }
              | _ :: _ :: _ =>
                { resp := none,
                  err := some (Wrap Sentinel.ErrInvalidAmount
                    "cannot send multiple denoms via IBC"),
                  calls := t4, state := ctx }
              | [coin] =>
                let portId := k.GetPort ctx
                let t5 := t4 ++ [Call.GetPort,
                  Call.GetChannelClientState portId ibcRecord.SourceChannel]
                match k.GetChannelClientState ctx portId ibcRecord.SourceChannel with
                | .error err => { resp := none, err := some err, calls := t5, state := ctx }
                | .ok (_, clientState) =>
                  let latestHeight := clientState.GetLatestHeight
                  let timeoutHeight := NewHeight latestHeight.revisionNumber
                    (uint64Add latestHeight.revisionHeight ibcRecord.IcsToHeightOffset)
                  let ibcTransferMsg := NewMsgTransfer portId ibcRecord.SourceChannel coin
                    (k.addrString sender) msg.ToAddress timeoutHeight 0
                  let t6 := t5 ++ [Call.Transfer ibcTransferMsg]
                  match k.Transfer ctx ibcTransferMsg with
                  | (err, ctx1) => { resp := some (), err := err, calls := t6, state := ctx1 }

/-! ## `MultiSend` -/

/-- How a handler that may panic ends: it returns a response pointer and an
error to its caller, or it panics with a value. -/
inductive Completion where
  | returned (resp : Option Unit) (err : Option Err)
  | panicked (value : Err)
  deriving DecidableEq, Repr

/-- What a call of `MultiSend` leaves behind. -/
structure MultiOutcome (σ : Type) where
  completion : Completion
  calls : List Call
  state : σ

/-- The loop over `msg.Inputs` (lines 128-132): the calls it makes and the
error it returns with, if any. -/
def inputsLoop {σ : Type} (k : Keeper σ) (ctx : σ) : List InOut → List Call × Option Err
  | [] => ([], none)
  | inp :: rest =>
    match k.IsSendEnabledCoins ctx inp.Coins with
    | some err => ([Call.IsSendEnabledCoins inp.Coins], some err)
    | none =>
      let r := inputsLoop k ctx rest
      (Call.IsSendEnabledCoins inp.Coins :: r.1, r.2)

/-- How the loop over `msg.Outputs` ends. -/
inductive OutputsExit where
  | completed
  | returned (err : Err)
  | panicked (value : Err)
  deriving DecidableEq, Repr

/-- The loop over `msg.Outputs` (lines 134-142): the calls it makes and how
it ends. -/
def outputsLoop {σ : Type} (k : Keeper σ) : List InOut → List Call × OutputsExit
  | [] => ([], OutputsExit.completed)
  | out :: rest =>
    match k.AccAddressFromBech32 out.Address with
    | .error err => ([Call.AccAddressFromBech32 out.Address], OutputsExit.panicked err)
    | .ok accAddr =>
      if k.BlockedAddr accAddr then
        ([Call.AccAddressFromBech32 out.Address, Call.BlockedAddr accAddr],
          OutputsExit.returned (Wrapf Sentinel.ErrUnauthorized out.Address
            " is not allowed to receive transactions"))
      else
        let r := outputsLoop k rest
        (Call.AccAddressFromBech32 out.Address :: Call.BlockedAddr accAddr :: r.1, r.2)

/-- `msgServer.MultiSend` (lines 124-157). -/
def MultiSend {σ : Type} (k : Keeper σ) (ctx : σ) (msg : MsgMultiSend) : MultiOutcome σ :=
  match inputsLoop k ctx msg.Inputs with
  | (t0, some err) =>
    { completion := Completion.returned none (some err), calls := t0, state := ctx }
  | (t0, none) =>
    match outputsLoop k msg.Outputs with
    | (t1, OutputsExit.panicked value) =>
      { completion := Completion.panicked value, calls := t0 ++ t1, state := ctx }
    | (t1, OutputsExit.returned err) =>
      { completion := Completion.returned none (some err), calls := t0 ++ t1, state := ctx }
    | (t1, OutputsExit.completed) =>
      let t2 := t0 ++ t1 ++ [Call.InputOutputCoins msg.Inputs msg.Outputs]
      match k.InputOutputCoins ctx msg.Inputs msg.Outputs with
      | (some err, ctx1) =>
        { completion := Completion.returned none (some err), calls := t2, state := ctx1 }
      | (none, ctx1) =>
        { completion := Completion.returned (some ()) none,
          calls := t2 ++ [Call.EmitEvent messageEvent], state := ctx1 }

/-! ## Observations on the call log -/

/-- The call is a `SendCoins` of the bank keeper. -/
def Call.isSendCoins : Call → Bool
  | Call.SendCoins _ _ _ => true
  | _ => false

/-- The call is a `Transfer` of the ics20 message server. -/
def Call.isTransfer : Call → Bool
  | Call.Transfer _ => true
  | _ => false

/-- The call is a `GetHrpIbcRecord` of the hrp-to-channel mapper. -/
def Call.isGetHrpIbcRecord : Call → Bool
  | Call.GetHrpIbcRecord _ => true
  | _ => false

/-- The call is a `GetChannelClientState` of the channel keeper. -/
def Call.isGetChannelClientState : Call → Bool
  | Call.GetChannelClientState _ _ => true
  | _ => false

/-- The call is an `InputOutputCoins` of the bank keeper. -/
def Call.isInputOutputCoins : Call → Bool
  | Call.InputOutputCoins _ _ => true
  | _ => false

/-- The call is an `sdk.AccAddressFromBech32`. -/
def Call.isAccAddressFromBech32 : Call → Bool
  | Call.AccAddressFromBech32 _ => true
  | _ => false

/-- The call is a `BlockedAddr` of the bank keeper. -/
def Call.isBlockedAddr : Call → Bool
  | Call.BlockedAddr _ => true
  | _ => false

/-- The call is an `EmitEvent` of the event manager. -/
def Call.isEmitEvent : Call → Bool
  | Call.EmitEvent _ => true
  | _ => false

/-! ## A sample chain

A small concrete instance of the collaborators, used to evaluate the
handlers: chain `abc` with a toy address codec. -/

/-- The ledger state of the sample chain. -/
structure World where
  /-- Denominations for which sending is disabled. -/
  disabledDenoms : List String
  /-- The native human-readable part, if it has been set. -/
  nativeHrp : Option String
  /-- The hrp-to-channel records. -/
  records : List (String × HrpIbcRecord)
  /-- The latest height of the client behind each channel. -/
  clients : List (String × Height)
  /-- The forwarding requests accepted so far. -/
  submitted : List MsgTransfer
  deriving DecidableEq, Repr

/-- The toy codec: the addresses the sample chain knows. -/
def sampleDecode (address : String) : Except Err (String × List Nat) :=
  if address = "abc1alice" then .ok ("abc", [1])
  else if address = "abc1bob" then .ok ("abc", [2])
  else if address = "abc1module" then .ok ("abc", [9])
  else if address = "xyz1carol" then .ok ("xyz", [3])
  else if address = "ABC1dave" then .ok ("ABC", [4])
  else .error (Err.collaborator "decoding bech32 failed")

/-- The toy `AccAddressFromBech32`: decode, then require the account hrp `abc`. -/
def sampleAccAddress (address : String) : Except Err AccAddress :=
  match sampleDecode address with
  | .error e => .error e
  | .ok (hrp, bz) =>
    if hrp = "abc" then .ok bz else .error (Err.collaborator "invalid Bech32 prefix")

/-- The toy `AccAddress.String`. -/
def sampleAddrString (addr : AccAddress) : String :=
  if addr = [1] then "abc1alice"
  else if addr = [2] then "abc1bob"
  else if addr = [9] then "abc1module"
  else ""

/-- The first value stored under a key of an association list. -/
def lookupKey {α : Type} (key : String) : List (String × α) → Option α
  | [] => none
  | (k, v) :: rest => if k = key then some v else lookupKey key rest

/-- The collaborators of the sample chain; the module account `abc1module`
is blocked from receiving funds. -/
def sampleKeeper : Keeper World :=
  { IsSendEnabledCoins := fun w coins =>
      match coins.find? (fun c => decide (c.denom ∈ w.disabledDenoms)) with
      | some c => some (Err.collaborator (c.denom ++ " transfers are currently disabled"))
      | none => none
    AccAddressFromBech32 := sampleAccAddress
    DecodeAndConvert := sampleDecode
    addrString := sampleAddrString
    GetNativeHrp := fun w =>
      match w.nativeHrp with
      | some h => .ok h
      | none => .error (Err.collaborator "native hrp not set")
    GetHrpIbcRecord := fun w hrp =>
      match lookupKey hrp w.records with
      | some r => .ok r
      | none => .error (Err.collaborator "record not found")
    BlockedAddr := fun addr => decide (addr = [9])
    SendCoins := fun w _ _ _ => (none, w)
    InputOutputCoins := fun w _ _ => (none, w)
    GetPort := fun _ => "transfer"
    GetChannelClientState := fun w _ channelId =>
      match lookupKey channelId w.clients with
      | some h => .ok ("07-tendermint-0", { latestHeight := h })
      | none => .error (Err.collaborator "client state not found")
    Transfer := fun w m => (none, { w with submitted := w.submitted ++ [m] }) }

/-- The sample chain of the spec's example: channel `channel-7` with offset
`1000` for hrp `xyz`, the remote client at height `{1, 500}`. -/
def sampleWorld : World :=
  { disabledDenoms := ["ufrozen"]
    nativeHrp := some "abc"
    records := [("xyz", { SourceChannel := "channel-7", IcsToHeightOffset := 1000 })]
    clients := [("channel-7", { revisionNumber := 1, revisionHeight := 500 })]
    submitted := [] }

/-- The sample chain with the remote client at the last `uint64` height and a
channel offset of `1`. -/
def overflowWorld : World :=
  { sampleWorld with
    records := [("xyz", { SourceChannel := "channel-7", IcsToHeightOffset := 1 })]
    clients := [("channel-7", { revisionNumber := 1, revisionHeight := 18446744073709551615 })] }

/-- The sample chain with the record for `xyz` but no client behind its channel. -/
def noClientWorld : World := { sampleWorld with clients := [] }

/-- The sample chain with no hrp-to-channel record at all. -/
def noRecordWorld : World := { sampleWorld with records := [] }

/-- Alice sends `50uabc` to Carol on chain `xyz`. -/
def remoteMsg : MsgSend :=
  { FromAddress := "abc1alice", ToAddress := "xyz1carol",
    Amount := [{ denom := "uabc", amount := 50 }] }

/-- Alice sends `100uabc` to Bob on the native chain. -/
def localMsg : MsgSend :=
  { FromAddress := "abc1alice", ToAddress := "abc1bob",
    Amount := [{ denom := "uabc", amount := 100 }] }

/-- Alice sends `100uabc` to the blocked module account. -/
def blockedMsg : MsgSend :=
  { FromAddress := "abc1alice", ToAddress := "abc1module",
    Amount := [{ denom := "uabc", amount := 100 }] }

/-- Alice sends two denominations to Carol on chain `xyz`. -/
def twoDenomMsg : MsgSend :=
  { FromAddress := "abc1alice", ToAddress := "xyz1carol",
    Amount := [{ denom := "uabc", amount := 50 }, { denom := "udef", amount := 7 }] }

/-- Alice sends no coin to Carol on chain `xyz`. -/
def emptyMsg : MsgSend :=
  { FromAddress := "abc1alice", ToAddress := "xyz1carol", Amount := [] }

/-- A message with a frozen denomination and two malformed addresses. -/
def frozenMsg : MsgSend :=
  { FromAddress := "not an address", ToAddress := "neither",
    Amount := [{ denom := "uabc", amount := 1 }, { denom := "ufrozen", amount := 2 }] }

/-- The sample chain with a remote client at height `{1, 500}` and a channel
offset of `2 ^ 64 - 100`. -/
def hugeOffsetWorld : World :=
  { sampleWorld with
    records := [("xyz",
      { SourceChannel := "channel-7", IcsToHeightOffset := 18446744073709551516 })] }

/-- The sample chain with the native hrp registered in upper case, and a
channel record for the lower-case hrp `abc`. -/
def upperWorld : World :=
  { sampleWorld with
    nativeHrp := some "ABC"
    records := [("abc", { SourceChannel := "channel-7", IcsToHeightOffset := 1000 })] }

/-- The collaborators of the sample chain, with an ics20 server that refuses
every request. -/
def rejectingKeeper : Keeper World :=
  { sampleKeeper with
    Transfer := fun w _ => (some (Err.collaborator "channel is not open"), w) }

/-- Alice pays `100uabc` to Bob in a batch. -/
def batchMsg : MsgMultiSend :=
  { Inputs := [{ Address := "abc1alice", Coins := [{ denom := "uabc", amount := 100 }] }]
    Outputs := [{ Address := "abc1bob", Coins := [{ denom := "uabc", amount := 100 }] }] }

/-- A batch whose second output address is malformed; the third is blocked. -/
def malformedBatchMsg : MsgMultiSend :=
  { Inputs := [{ Address := "abc1alice", Coins := [{ denom := "uabc", amount := 100 }] }]
    Outputs := [{ Address := "abc1bob", Coins := [{ denom := "uabc", amount := 50 }] },
      { Address := "garbage", Coins := [{ denom := "uabc", amount := 30 }] },
      { Address := "abc1module", Coins := [{ denom := "uabc", amount := 20 }] }] }

/-- A batch whose first output is blocked and whose second output address is
malformed. -/
def blockedFirstBatchMsg : MsgMultiSend :=
  { Inputs := [{ Address := "abc1alice", Coins := [{ denom := "uabc", amount := 100 }] }]
    Outputs := [{ Address := "abc1module", Coins := [{ denom := "uabc", amount := 50 }] },
      { Address := "garbage", Coins := [{ denom := "uabc", amount := 50 }] }] }

/-- A batch whose last output is blocked. -/
def blockedLastBatchMsg : MsgMultiSend :=
  { Inputs := [{ Address := "abc1alice", Coins := [{ denom := "uabc", amount := 100 }] }]
    Outputs := [{ Address := "abc1bob", Coins := [{ denom := "uabc", amount := 50 }] },
      { Address := "abc1module", Coins := [{ denom := "uabc", amount := 50 }] }] }

/-- A batch whose second input holds a frozen denomination; its third input
holds one too, and its output address is malformed. -/
def frozenBatchMsg : MsgMultiSend :=
  { Inputs := [{ Address := "abc1alice", Coins := [{ denom := "uabc", amount := 1 }] },
      { Address := "abc1bob", Coins := [{ denom := "ufrozen", amount := 2 }] },
      { Address := "abc1bob", Coins := [{ denom := "ufrozen", amount := 3 }] }]
    Outputs := [{ Address := "garbage", Coins := [{ denom := "uabc", amount := 6 }] }] }

/-- Alice sends a frozen denomination to Carol on chain `xyz`. -/
def frozenRemoteMsg : MsgSend :=
  { FromAddress := "abc1alice", ToAddress := "xyz1carol",
    Amount := [{ denom := "ufrozen", amount := 5 }] }

/-- A batch whose input holds a frozen denomination and whose output is the
blocked module account. -/
def frozenBlockedBatchMsg : MsgMultiSend :=
  { Inputs := [{ Address := "abc1alice", Coins := [{ denom := "ufrozen", amount := 5 }] }]
    Outputs := [{ Address := "abc1module", Coins := [{ denom := "ufrozen", amount := 5 }] }] }

/-- The call changes the ledger: a `SendCoins` of the bank keeper or a
`Transfer` of the ics20 message server. -/
def Call.isEffect : Call → Bool
  | Call.SendCoins _ _ _ => true
  | Call.Transfer _ => true
  | _ => false

/-! ## Collaborators that answer alike in two states -/

/-- The collaborators answer in state `ctx2` as they do in state `ctx1`: every
getter returns the same value and every state-changing call returns the same
error. -/
structure AnswersAlike {σ : Type} (k : Keeper σ) (ctx1 ctx2 : σ) : Prop where
  sendEnabled : ∀ coins, k.IsSendEnabledCoins ctx2 coins = k.IsSendEnabledCoins ctx1 coins
  nativeHrp : k.GetNativeHrp ctx2 = k.GetNativeHrp ctx1
  record : ∀ hrp, k.GetHrpIbcRecord ctx2 hrp = k.GetHrpIbcRecord ctx1 hrp
  port : k.GetPort ctx2 = k.GetPort ctx1
  clientState : ∀ portId channelId,
    k.GetChannelClientState ctx2 portId channelId = k.GetChannelClientState ctx1 portId channelId
  sendCoins : ∀ sender recipient amt,
    (k.SendCoins ctx2 sender recipient amt).1 = (k.SendCoins ctx1 sender recipient amt).1
  transfer : ∀ m, (k.Transfer ctx2 m).1 = (k.Transfer ctx1 m).1

/-! ## Lemmas on the call log -/

theorem gaugeCalls_shape (amt : Coins) (c : Call) (h : c ∈ gaugeCalls amt) :
    ∃ d v, c = Call.SetGaugeWithLabels d v := by
  unfold gaugeCalls at h
  rcases List.mem_map.mp h with ⟨a, _, rfl⟩
  exact ⟨a.denom, a.amount, rfl⟩

theorem transfer_not_mem_gaugeCalls (amt : Coins) (m : MsgTransfer) :
    Call.Transfer m ∉ gaugeCalls amt := by
  intro h
  rcases gaugeCalls_shape amt _ h with ⟨d, v, hc⟩
  cases hc

theorem filter_gaugeCalls (p : Call → Bool) (amt : Coins)
    (hp : ∀ d v, p (Call.SetGaugeWithLabels d v) = false) :
    (gaugeCalls amt).filter p = [] := by
  rw [List.filter_eq_nil_iff]
  intro c hc
  rcases gaugeCalls_shape amt c hc with ⟨d, v, rfl⟩
  simp [hp d v]

/-! ## The remote path: the forwarding request -/

theorem Send_transfer_timeoutHeight {σ : Type} (k : Keeper σ) (ctx : σ) (msg : MsgSend)
    (m : MsgTransfer) (hrp : String) (bz : List Nat) (ibcRecord : HrpIbcRecord)
    (clientId : String) (clientState : ClientState)
    (hDec : k.DecodeAndConvert msg.ToAddress = .ok (hrp, bz))
    (hRecord : k.GetHrpIbcRecord ctx hrp = .ok ibcRecord)
    (hClient : k.GetChannelClientState ctx (k.GetPort ctx) ibcRecord.SourceChannel
      = .ok (clientId, clientState))
    (hSubmitted : Call.Transfer m ∈ (Send k ctx msg).calls) :
    m.TimeoutHeight = NewHeight clientState.latestHeight.revisionNumber
      (uint64Add clientState.latestHeight.revisionHeight ibcRecord.IcsToHeightOffset) := by
  unfold Send at hSubmitted
  simp only [hDec] at hSubmitted
  repeat' split at hSubmitted
  all_goals
    simp_all [NewMsgTransfer, ClientState.GetLatestHeight, transfer_not_mem_gaugeCalls]

/-- C1 (as amended): for every forwarding request `m` that `Send` submits,
where `ibcRecord` is the record of the recipient's hrp and `clientState` the
state of the client behind its channel, `m.TimeoutHeight` has the revision
number of the client's latest height and, whenever the sum of the latest
revision height and `IcsToHeightOffset` is below `2 ^ 64`, that sum as its
revision height. -/
theorem Send_timeoutHeight {σ : Type} (k : Keeper σ) (ctx : σ) (msg : MsgSend)
    (m : MsgTransfer) (hrp : String) (bz : List Nat) (ibcRecord : HrpIbcRecord)
    (clientId : String) (clientState : ClientState)
    (hDec : k.DecodeAndConvert msg.ToAddress = .ok (hrp, bz))
    (hRecord : k.GetHrpIbcRecord ctx hrp = .ok ibcRecord)
    (hClient : k.GetChannelClientState ctx (k.GetPort ctx) ibcRecord.SourceChannel
      = .ok (clientId, clientState))
    (hSubmitted : Call.Transfer m ∈ (Send k ctx msg).calls) :
    m.TimeoutHeight.revisionNumber = clientState.latestHeight.revisionNumber ∧
    (clientState.latestHeight.revisionHeight + ibcRecord.IcsToHeightOffset < 2 ^ 64 →
      m.TimeoutHeight.revisionHeight
        = clientState.latestHeight.revisionHeight + ibcRecord.IcsToHeightOffset) := by
  rw [Send_transfer_timeoutHeight k ctx msg m hrp bz ibcRecord clientId clientState
    hDec hRecord hClient hSubmitted]
  refine ⟨rfl, fun h => ?_⟩
  simp only [NewHeight, uint64Add, uint64Size]
  exact Nat.mod_eq_of_lt h

/-- The request of the spec's example: port `transfer`, channel `channel-7`,
timeout height `{1, 1500}`. -/
theorem Send_timeoutHeight_witness :
    Call.Transfer (NewMsgTransfer "transfer" "channel-7" { denom := "uabc", amount := 50 }
        "abc1alice" "xyz1carol" (NewHeight 1 1500) 0)
      ∈ (Send sampleKeeper sampleWorld remoteMsg).calls ∧
    ((NewHeight 1 1500).revisionNumber = 1 ∧
      (500 + 1000 < 2 ^ 64 → (NewHeight 1 1500).revisionHeight = 500 + 1000)) :=
  ⟨by decide,
    Send_timeoutHeight sampleKeeper sampleWorld remoteMsg
      (NewMsgTransfer "transfer" "channel-7" { denom := "uabc", amount := 50 }
        "abc1alice" "xyz1carol" (NewHeight 1 1500) 0)
      "xyz" [3] { SourceChannel := "channel-7", IcsToHeightOffset := 1000 }
      "07-tendermint-0" { latestHeight := { revisionNumber := 1, revisionHeight := 500 } }
      (by decide) (by decide) (by decide) (by decide)⟩

/-- C1 fails as stated: with the client at height `{1, 2 ^ 64 - 1}` and an
offset of `1`, the one request `Send` submits has revision height `0`, not
`2 ^ 64`. -/
theorem Send_timeoutHeight_overflow :
    sampleKeeper.GetHrpIbcRecord overflowWorld "xyz"
      = .ok { SourceChannel := "channel-7", IcsToHeightOffset := 1 } ∧
    sampleKeeper.GetChannelClientState overflowWorld "transfer" "channel-7"
      = .ok ("07-tendermint-0",
          { latestHeight := { revisionNumber := 1, revisionHeight := 18446744073709551615 } }) ∧
    (Send sampleKeeper overflowWorld remoteMsg).calls.filter Call.isTransfer
      = [Call.Transfer (NewMsgTransfer "transfer" "channel-7" { denom := "uabc", amount := 50 }
          "abc1alice" "xyz1carol" (NewHeight 1 0) 0)] ∧
    (NewHeight 1 0).revisionHeight ≠ 18446744073709551615 + 1 := by
  decide

/-- C2 (as amended): when the send-enabled check passes, the sender decodes,
the recipient's hrp differs from the native hrp, the amount has exactly one
coin, the hrp has a channel record and the channel's client state is found,
`Send` invokes the ics20 `Transfer` exactly once. -/
theorem Send_submits_one_request {σ : Type} (k : Keeper σ) (ctx : σ) (msg : MsgSend)
    (sender : AccAddress) (hrp nativeHrp : String) (bz : List Nat)
    (ibcRecord : HrpIbcRecord) (clientId : String) (clientState : ClientState)
    (hEnabled : k.IsSendEnabledCoins ctx msg.Amount = none)
    (hSender : k.AccAddressFromBech32 msg.FromAddress = .ok sender)
    (hDec : k.DecodeAndConvert msg.ToAddress = .ok (hrp, bz))
    (hNat : k.GetNativeHrp ctx = .ok nativeHrp)
    (hForeign : hrp ≠ nativeHrp)
    (hOne : msg.Amount.Len = 1)
    (hRecord : k.GetHrpIbcRecord ctx hrp = .ok ibcRecord)
    (hClient : k.GetChannelClientState ctx (k.GetPort ctx) ibcRecord.SourceChannel
      = .ok (clientId, clientState)) :
    ((Send k ctx msg).calls.filter Call.isTransfer).length = 1 := by
  obtain ⟨coin, hAmt⟩ := List.length_eq_one.mp hOne
  rw [hAmt] at hEnabled
  unfold Send
  simp [hAmt, hEnabled, hSender, hDec, hNat, hForeign, hRecord, hClient, List.filter_cons,
    Call.isTransfer]

/-- On the sample chain the example message is forwarded exactly once. -/
theorem Send_submits_one_request_witness :
    ((Send sampleKeeper sampleWorld remoteMsg).calls.filter Call.isTransfer).length = 1 :=
  Send_submits_one_request sampleKeeper sampleWorld remoteMsg [1] "xyz" "abc" [3]
    { SourceChannel := "channel-7", IcsToHeightOffset := 1000 } "07-tendermint-0"
    { latestHeight := { revisionNumber := 1, revisionHeight := 500 } }
    (by decide) (by decide) (by decide) (by decide) (by decide) (by decide) (by decide)
    (by decide)

/-- C2 fails as stated: a foreign hrp with a channel record and a single coin,
but no client state behind the channel; `Send` returns the channel keeper's
error and never invokes the ics20 `Transfer`. -/
theorem Send_no_request_without_client_state :
    sampleKeeper.DecodeAndConvert remoteMsg.ToAddress = .ok ("xyz", [3]) ∧
    sampleKeeper.GetNativeHrp noClientWorld = .ok "abc" ∧
    "xyz" ≠ "abc" ∧
    remoteMsg.Amount.Len = 1 ∧
    sampleKeeper.GetHrpIbcRecord noClientWorld "xyz"
      = .ok { SourceChannel := "channel-7", IcsToHeightOffset := 1000 } ∧
    (Send sampleKeeper noClientWorld remoteMsg).err
      = some (Err.collaborator "client state not found") ∧
    (Send sampleKeeper noClientWorld remoteMsg).calls.filter Call.isTransfer = [] := by
  decide

/-! ## The local path -/

/-- C3 (as amended): when the send-enabled check passes, the sender decodes,
the recipient's hrp equals the native hrp, the recipient decodes to an
account address and that address is not blocked, `Send` invokes `SendCoins`
exactly once, with the decoded sender, the decoded recipient and the
message's amount. -/
theorem Send_local_sends_coins_once {σ : Type} (k : Keeper σ) (ctx : σ) (msg : MsgSend)
    (sender recipient : AccAddress) (hrp : String) (bz : List Nat)
    (hEnabled : k.IsSendEnabledCoins ctx msg.Amount = none)
    (hSender : k.AccAddressFromBech32 msg.FromAddress = .ok sender)
    (hDec : k.DecodeAndConvert msg.ToAddress = .ok (hrp, bz))
    (hNat : k.GetNativeHrp ctx = .ok hrp)
    (hRecipient : k.AccAddressFromBech32 msg.ToAddress = .ok recipient)
    (hFree : k.BlockedAddr recipient = false) :
    (Send k ctx msg).calls.filter Call.isSendCoins
      = [Call.SendCoins sender recipient msg.Amount] := by
  unfold Send
  simp only [hEnabled, hSender, hDec, hNat, hRecipient, hFree]
  repeat' split
  all_goals
    simp_all [List.filter_append, List.filter_cons, filter_gaugeCalls, Call.isSendCoins]

/-- The spec's local example: one `SendCoins` from Alice to Bob with `100uabc`. -/
theorem Send_local_sends_coins_once_witness :
    (Send sampleKeeper sampleWorld localMsg).calls.filter Call.isSendCoins
      = [Call.SendCoins [1] [2] [{ denom := "uabc", amount := 100 }]] :=
  Send_local_sends_coins_once sampleKeeper sampleWorld localMsg [1] [2] "abc" [2]
    (by decide) (by decide) (by decide) (by decide) (by decide) (by decide)

/-- C3 fails as stated: the recipient's hrp is the native one, yet the
recipient is blocked and `SendCoins` is not invoked. -/
theorem Send_local_blocked_no_SendCoins :
    sampleKeeper.DecodeAndConvert blockedMsg.ToAddress = .ok ("abc", [9]) ∧
    sampleKeeper.GetNativeHrp sampleWorld = .ok "abc" ∧
    (Send sampleKeeper sampleWorld blockedMsg).calls.filter Call.isSendCoins = [] := by
  decide

/-- C4: when the recipient's decoded hrp equals the native hrp, `Send` never
invokes `GetHrpIbcRecord`, `GetChannelClientState` or the ics20 `Transfer`,
however the call ends. -/
theorem Send_local_never_forwards {σ : Type} (k : Keeper σ) (ctx : σ) (msg : MsgSend)
    (hrp : String) (bz : List Nat)
    (hDec : k.DecodeAndConvert msg.ToAddress = .ok (hrp, bz))
    (hNat : k.GetNativeHrp ctx = .ok hrp) :
    (Send k ctx msg).calls.filter Call.isGetHrpIbcRecord = [] ∧
    (Send k ctx msg).calls.filter Call.isGetChannelClientState = [] ∧
    (Send k ctx msg).calls.filter Call.isTransfer = [] := by
  unfold Send
  simp only [hDec, hNat]
  repeat' split
  all_goals
    simp_all [List.filter_append, filter_gaugeCalls, Call.isGetHrpIbcRecord,
      Call.isGetChannelClientState, Call.isTransfer]

/-- The local example forwards nothing. -/
theorem Send_local_never_forwards_witness :
    (Send sampleKeeper sampleWorld localMsg).calls.filter Call.isGetHrpIbcRecord = [] ∧
    (Send sampleKeeper sampleWorld localMsg).calls.filter Call.isGetChannelClientState = [] ∧
    (Send sampleKeeper sampleWorld localMsg).calls.filter Call.isTransfer = [] :=
  Send_local_never_forwards sampleKeeper sampleWorld localMsg "abc" [2] (by decide) (by decide)

/-- C7: on the local path (the send-enabled check has passed, the sender has
decoded and the recipient's hrp equals the native hrp), when the decoded
recipient is blocked, `Send` fails with `ErrUnauthorized` wrapped with
"<ToAddress> is not allowed to receive funds", returns no response and never
invokes `SendCoins`. -/
theorem Send_blocked_recipient_rejected {σ : Type} (k : Keeper σ) (ctx : σ) (msg : MsgSend)
    (sender recipient : AccAddress) (hrp : String) (bz : List Nat)
    (hEnabled : k.IsSendEnabledCoins ctx msg.Amount = none)
    (hSender : k.AccAddressFromBech32 msg.FromAddress = .ok sender)
    (hDec : k.DecodeAndConvert msg.ToAddress = .ok (hrp, bz))
    (hNat : k.GetNativeHrp ctx = .ok hrp)
    (hRecipient : k.AccAddressFromBech32 msg.ToAddress = .ok recipient)
    (hBlocked : k.BlockedAddr recipient = true) :
    (Send k ctx msg).resp = none ∧
    (Send k ctx msg).err
      = some (Wrapf Sentinel.ErrUnauthorized msg.ToAddress
          " is not allowed to receive funds") ∧
    (Send k ctx msg).calls.filter Call.isSendCoins = [] := by
  unfold Send
  simp [hEnabled, hSender, hDec, hNat, hRecipient, hBlocked, Wrapf, List.filter_cons,
    Call.isSendCoins]

/-- A send to the blocked module account of the sample chain is refused. -/
theorem Send_blocked_recipient_rejected_witness :
    (Send sampleKeeper sampleWorld blockedMsg).resp = none ∧
    (Send sampleKeeper sampleWorld blockedMsg).err
      = some (Wrapf Sentinel.ErrUnauthorized blockedMsg.ToAddress
          " is not allowed to receive funds") ∧
    (Send sampleKeeper sampleWorld blockedMsg).calls.filter Call.isSendCoins = [] :=
  Send_blocked_recipient_rejected sampleKeeper sampleWorld blockedMsg [1] [9] "abc" [9]
    (by decide) (by decide) (by decide) (by decide) (by decide) (by decide)

/-! ## The remote path: rejections -/

/-- C5 (as amended): on the remote path (the send-enabled check has passed,
the sender has decoded and the recipient's hrp differs from the native hrp),
when the hrp has a channel record and the amount has two coins or more,
`Send` fails with `ErrInvalidAmount` wrapped with "cannot send multiple
denoms via IBC", returns no response, invokes neither `SendCoins` nor the
ics20 `Transfer`, emits no event and leaves the state as it was. -/
theorem Send_multi_denom_rejected {σ : Type} (k : Keeper σ) (ctx : σ) (msg : MsgSend)
    (sender : AccAddress) (hrp nativeHrp : String) (bz : List Nat) (ibcRecord : HrpIbcRecord)
    (hEnabled : k.IsSendEnabledCoins ctx msg.Amount = none)
    (hSender : k.AccAddressFromBech32 msg.FromAddress = .ok sender)
    (hDec : k.DecodeAndConvert msg.ToAddress = .ok (hrp, bz))
    (hNat : k.GetNativeHrp ctx = .ok nativeHrp)
    (hForeign : hrp ≠ nativeHrp)
    (hRecord : k.GetHrpIbcRecord ctx hrp = .ok ibcRecord)
    (hMany : 2 ≤ msg.Amount.Len) :
    (Send k ctx msg).resp = none ∧
    (Send k ctx msg).err
      = some (Wrap Sentinel.ErrInvalidAmount "cannot send multiple denoms via IBC") ∧
    (Send k ctx msg).calls.filter Call.isSendCoins = [] ∧
    (Send k ctx msg).calls.filter Call.isTransfer = [] ∧
    (Send k ctx msg).calls.filter Call.isEmitEvent = [] ∧
    (Send k ctx msg).state = ctx := by
  obtain ⟨c1, c2, rest, hAmt⟩ : ∃ c1 c2 rest, msg.Amount = c1 :: c2 :: rest := by
    match hm : msg.Amount, hMany with
    | c1 :: c2 :: rest, _ => exact ⟨c1, c2, rest, rfl⟩
    | [c], h => simp [Coins.Len] at h
    | [], h => simp [Coins.Len] at h
  rw [hAmt] at hEnabled
  unfold Send
  simp [hAmt, hEnabled, hSender, hDec, hNat, hForeign, hRecord, Wrap, List.filter_cons,
    Call.isSendCoins, Call.isTransfer, Call.isEmitEvent]

/-- Two denominations for chain `xyz` are refused on the sample chain. -/
theorem Send_multi_denom_rejected_witness :
    (Send sampleKeeper sampleWorld twoDenomMsg).resp = none ∧
    (Send sampleKeeper sampleWorld twoDenomMsg).err
      = some (Wrap Sentinel.ErrInvalidAmount "cannot send multiple denoms via IBC") ∧
    (Send sampleKeeper sampleWorld twoDenomMsg).calls.filter Call.isSendCoins = [] ∧
    (Send sampleKeeper sampleWorld twoDenomMsg).calls.filter Call.isTransfer = [] ∧
    (Send sampleKeeper sampleWorld twoDenomMsg).calls.filter Call.isEmitEvent = [] ∧
    (Send sampleKeeper sampleWorld twoDenomMsg).state = sampleWorld :=
  Send_multi_denom_rejected sampleKeeper sampleWorld twoDenomMsg [1] "xyz" "abc" [3]
    { SourceChannel := "channel-7", IcsToHeightOffset := 1000 }
    (by decide) (by decide) (by decide) (by decide) (by decide) (by decide) (by decide)

/-- C5 fails as stated: two denominations for a foreign hrp that has no
channel record; `Send` fails with the mapper's error, not `ErrInvalidAmount`. -/
theorem Send_multi_denom_unknown_destination :
    2 ≤ twoDenomMsg.Amount.Len ∧
    sampleKeeper.DecodeAndConvert twoDenomMsg.ToAddress = .ok ("xyz", [3]) ∧
    sampleKeeper.GetNativeHrp noRecordWorld = .ok "abc" ∧
    "xyz" ≠ "abc" ∧
    (Send sampleKeeper noRecordWorld twoDenomMsg).err
      = some (Err.collaborator "record not found") ∧
    (Send sampleKeeper noRecordWorld twoDenomMsg).err
      ≠ some (Wrap Sentinel.ErrInvalidAmount "cannot send multiple denoms via IBC") := by
  decide

/-- C6 (as amended): on the remote path (the send-enabled check has passed,
the sender has decoded and the recipient's hrp differs from the native hrp),
when the hrp has a channel record and the amount is empty, `Send` fails with
`ErrNoInputs` wrapped with "invalid send amount" and returns no response. -/
theorem Send_empty_amount_rejected {σ : Type} (k : Keeper σ) (ctx : σ) (msg : MsgSend)
    (sender : AccAddress) (hrp nativeHrp : String) (bz : List Nat) (ibcRecord : HrpIbcRecord)
    (hEnabled : k.IsSendEnabledCoins ctx msg.Amount = none)
    (hSender : k.AccAddressFromBech32 msg.FromAddress = .ok sender)
    (hDec : k.DecodeAndConvert msg.ToAddress = .ok (hrp, bz))
    (hNat : k.GetNativeHrp ctx = .ok nativeHrp)
    (hForeign : hrp ≠ nativeHrp)
    (hRecord : k.GetHrpIbcRecord ctx hrp = .ok ibcRecord)
    (hEmpty : msg.Amount.Len = 0) :
    (Send k ctx msg).resp = none ∧
    (Send k ctx msg).err = some (Wrap Sentinel.ErrNoInputs "invalid send amount") := by
  have hAmt : msg.Amount = [] := List.length_eq_zero.mp hEmpty
  rw [hAmt] at hEnabled
  unfold Send
  simp [hAmt, hEnabled, hSender, hDec, hNat, hForeign, hRecord, Wrap]

/-- An empty amount for chain `xyz` is refused on the sample chain. -/
theorem Send_empty_amount_rejected_witness :
    (Send sampleKeeper sampleWorld emptyMsg).resp = none ∧
    (Send sampleKeeper sampleWorld emptyMsg).err
      = some (Wrap Sentinel.ErrNoInputs "invalid send amount") :=
  Send_empty_amount_rejected sampleKeeper sampleWorld emptyMsg [1] "xyz" "abc" [3]
    { SourceChannel := "channel-7", IcsToHeightOffset := 1000 }
    (by decide) (by decide) (by decide) (by decide) (by decide) (by decide) (by decide)

/-- C6 fails as stated: an empty amount for a foreign hrp that has no channel
record; `Send` fails with the mapper's error, not `ErrNoInputs`. -/
theorem Send_empty_amount_unknown_destination :
    emptyMsg.Amount.Len = 0 ∧
    sampleKeeper.DecodeAndConvert emptyMsg.ToAddress = .ok ("xyz", [3]) ∧
    sampleKeeper.GetNativeHrp noRecordWorld = .ok "abc" ∧
    "xyz" ≠ "abc" ∧
    (Send sampleKeeper noRecordWorld emptyMsg).err
      = some (Err.collaborator "record not found") ∧
    (Send sampleKeeper noRecordWorld emptyMsg).err
      ≠ some (Wrap Sentinel.ErrNoInputs "invalid send amount") := by
  decide

/-- C8 (as amended): when the send-enabled check has passed, the sender has
decoded and the recipient's hrp differs from the native hrp, and
`GetHrpIbcRecord` finds no record for the hrp and returns an error, `Send`
fails with that very error, returns no response, and invokes neither
`GetChannelClientState` nor the ics20 `Transfer`. -/
theorem Send_unknown_destination {σ : Type} (k : Keeper σ) (ctx : σ) (msg : MsgSend)
    (sender : AccAddress) (hrp nativeHrp : String) (bz : List Nat) (e : Err)
    (hEnabled : k.IsSendEnabledCoins ctx msg.Amount = none)
    (hSender : k.AccAddressFromBech32 msg.FromAddress = .ok sender)
    (hDec : k.DecodeAndConvert msg.ToAddress = .ok (hrp, bz))
    (hNat : k.GetNativeHrp ctx = .ok nativeHrp)
    (hForeign : hrp ≠ nativeHrp)
    (hNoRecord : k.GetHrpIbcRecord ctx hrp = .error e) :
    (Send k ctx msg).resp = none ∧
    (Send k ctx msg).err = some e ∧
    (Send k ctx msg).calls.filter Call.isGetChannelClientState = [] ∧
    (Send k ctx msg).calls.filter Call.isTransfer = [] := by
  unfold Send
  simp [hEnabled, hSender, hDec, hNat, hForeign, hNoRecord, List.filter_cons,
    Call.isGetChannelClientState, Call.isTransfer]

/-- The spec's example: hrp `xyz` with no registered channel. -/
theorem Send_unknown_destination_witness :
    (Send sampleKeeper noRecordWorld remoteMsg).resp = none ∧
    (Send sampleKeeper noRecordWorld remoteMsg).err
      = some (Err.collaborator "record not found") ∧
    (Send sampleKeeper noRecordWorld remoteMsg).calls.filter Call.isGetChannelClientState = [] ∧
    (Send sampleKeeper noRecordWorld remoteMsg).calls.filter Call.isTransfer = [] :=
  Send_unknown_destination sampleKeeper noRecordWorld remoteMsg [1] "xyz" "abc" [3]
    (Err.collaborator "record not found")
    (by decide) (by decide) (by decide) (by decide) (by decide) (by decide)

/-- C8 fails as stated: a foreign hrp without a channel record, but a frozen
denomination in the amount; `Send` fails with the send-enabled error of line
33, not with the mapper's error. -/
theorem Send_unknown_destination_send_disabled :
    sampleKeeper.DecodeAndConvert frozenRemoteMsg.ToAddress = .ok ("xyz", [3]) ∧
    sampleKeeper.GetNativeHrp noRecordWorld = .ok "abc" ∧
    "xyz" ≠ "abc" ∧
    sampleKeeper.GetHrpIbcRecord noRecordWorld "xyz"
      = .error (Err.collaborator "record not found") ∧
    (Send sampleKeeper noRecordWorld frozenRemoteMsg).err
      = some (Err.collaborator "ufrozen transfers are currently disabled") ∧
    (Send sampleKeeper noRecordWorld frozenRemoteMsg).err
      ≠ some (Err.collaborator "record not found") := by
  decide

/-! ## The send-enabled check -/

/-- C9: when `IsSendEnabledCoins` returns an error for the amount, `Send`
fails with that error and no response, and the send-enabled check is the
only collaborator call it has made, whatever the two address strings are;
the state is left as it was. -/
theorem Send_send_disabled_first {σ : Type} (k : Keeper σ) (ctx : σ) (msg : MsgSend)
    (e : Err) (hDisabled : k.IsSendEnabledCoins ctx msg.Amount = some e) :
    (Send k ctx msg).resp = none ∧
    (Send k ctx msg).err = some e ∧
    (Send k ctx msg).calls = [Call.IsSendEnabledCoins msg.Amount] ∧
    (Send k ctx msg).state = ctx := by
  unfold Send
  simp [hDisabled]

/-- A frozen denomination is refused before the malformed addresses are looked at. -/
theorem Send_send_disabled_first_witness :
    sampleKeeper.AccAddressFromBech32 frozenMsg.FromAddress
      = .error (Err.collaborator "decoding bech32 failed") ∧
    sampleKeeper.DecodeAndConvert frozenMsg.ToAddress
      = .error (Err.collaborator "decoding bech32 failed") ∧
    ((Send sampleKeeper sampleWorld frozenMsg).resp = none ∧
      (Send sampleKeeper sampleWorld frozenMsg).err
        = some (Err.collaborator "ufrozen transfers are currently disabled") ∧
      (Send sampleKeeper sampleWorld frozenMsg).calls
        = [Call.IsSendEnabledCoins frozenMsg.Amount] ∧
      (Send sampleKeeper sampleWorld frozenMsg).state = sampleWorld) :=
  ⟨by decide, by decide,
    Send_send_disabled_first sampleKeeper sampleWorld frozenMsg
      (Err.collaborator "ufrozen transfers are currently disabled") (by decide)⟩

/-! ## The remote path touches no local balance -/

/-- C10: when the recipient's decoded hrp differs from the native hrp, `Send`
never invokes `SendCoins` (nor `InputOutputCoins`), however the call ends. -/
theorem Send_remote_never_sends_coins {σ : Type} (k : Keeper σ) (ctx : σ) (msg : MsgSend)
    (hrp nativeHrp : String) (bz : List Nat)
    (hDec : k.DecodeAndConvert msg.ToAddress = .ok (hrp, bz))
    (hNat : k.GetNativeHrp ctx = .ok nativeHrp)
    (hForeign : hrp ≠ nativeHrp) :
    (Send k ctx msg).calls.filter Call.isSendCoins = [] ∧
    (Send k ctx msg).calls.filter Call.isInputOutputCoins = [] := by
  unfold Send
  simp only [hDec, hNat]
  repeat' split
  all_goals
    simp_all [List.filter_append, List.filter_cons, Call.isSendCoins, Call.isInputOutputCoins]

/-- The forwarded example calls neither `SendCoins` nor `InputOutputCoins`. -/
theorem Send_remote_never_sends_coins_witness :
    (Send sampleKeeper sampleWorld remoteMsg).calls.filter Call.isSendCoins = [] ∧
    (Send sampleKeeper sampleWorld remoteMsg).calls.filter Call.isInputOutputCoins = [] :=
  Send_remote_never_sends_coins sampleKeeper sampleWorld remoteMsg "xyz" "abc" [3]
    (by decide) (by decide) (by decide)

/-! ## `MultiSend`: the two loops -/

theorem inputsLoop_pass {σ : Type} (k : Keeper σ) (ctx : σ) (inputs : List InOut)
    (h : ∀ inp ∈ inputs, k.IsSendEnabledCoins ctx inp.Coins = none) :
    inputsLoop k ctx inputs
      = (inputs.map fun inp => Call.IsSendEnabledCoins inp.Coins, none) := by
  induction inputs with
  | nil => rfl
  | cons inp rest ih =>
    have h1 := h inp (List.mem_cons_self _ _)
    have h2 := ih fun i hi => h i (List.mem_cons_of_mem _ hi)
    simp [inputsLoop, h1, h2]

theorem inputsLoop_fail {σ : Type} (k : Keeper σ) (ctx : σ) (pre : List InOut)
    (bad : InOut) (post : List InOut) (e : Err)
    (hPre : ∀ inp ∈ pre, k.IsSendEnabledCoins ctx inp.Coins = none)
    (hBad : k.IsSendEnabledCoins ctx bad.Coins = some e) :
    inputsLoop k ctx (pre ++ bad :: post)
      = ((pre ++ [bad]).map fun inp => Call.IsSendEnabledCoins inp.Coins, some e) := by
  induction pre with
  | nil => simp [inputsLoop, hBad]
  | cons inp rest ih =>
    have h1 := hPre inp (List.mem_cons_self _ _)
    have h2 := ih fun i hi => hPre i (List.mem_cons_of_mem _ hi)
    simp [inputsLoop, h1, h2]

theorem exists_first_failing_input {σ : Type} (k : Keeper σ) (ctx : σ) (inputs : List InOut)
    (h : ∃ inp ∈ inputs, k.IsSendEnabledCoins ctx inp.Coins ≠ none) :
    ∃ pre bad post e, inputs = pre ++ bad :: post ∧
      (∀ inp ∈ pre, k.IsSendEnabledCoins ctx inp.Coins = none) ∧
      k.IsSendEnabledCoins ctx bad.Coins = some e := by
  induction inputs with
  | nil => simp at h
  | cons inp rest ih =>
    cases hc : k.IsSendEnabledCoins ctx inp.Coins with
    | some e => exact ⟨[], inp, rest, e, rfl, by simp, hc⟩
    | none =>
      obtain ⟨x, hx, hne⟩ := h
      rcases List.mem_cons.mp hx with rfl | hx
      · exact absurd hc hne
      · obtain ⟨pre, bad, post, e, hEq, hPre, hBad⟩ := ih ⟨x, hx, hne⟩
        refine ⟨inp :: pre, bad, post, e, by simp [hEq], ?_, hBad⟩
        intro i hi
        rcases List.mem_cons.mp hi with rfl | hi
        · exact hc
        · exact hPre i hi

theorem outputsLoop_panics {σ : Type} (k : Keeper σ) (pre : List InOut) (bad : InOut)
    (post : List InOut) (e : Err)
    (hPre : ∀ out ∈ pre, ∃ a, k.AccAddressFromBech32 out.Address = .ok a ∧
      k.BlockedAddr a = false)
    (hBad : k.AccAddressFromBech32 bad.Address = .error e) :
    (outputsLoop k (pre ++ bad :: post)).2 = OutputsExit.panicked e := by
  induction pre with
  | nil => simp [outputsLoop, hBad]
  | cons out rest ih =>
    obtain ⟨a, ha, hb⟩ := hPre out (List.mem_cons_self _ _)
    have h2 := ih fun o ho => hPre o (List.mem_cons_of_mem _ ho)
    simp [outputsLoop, ha, hb, h2]

theorem outputsLoop_completed {σ : Type} (k : Keeper σ) (outs : List InOut)
    (h : (outputsLoop k outs).2 = OutputsExit.completed) :
    ∀ out ∈ outs, ∃ a, k.AccAddressFromBech32 out.Address = .ok a ∧
      k.BlockedAddr a = false := by
  induction outs with
  | nil => simp
  | cons out rest ih =>
    intro o ho
    cases ha : k.AccAddressFromBech32 out.Address with
    | error e => simp [outputsLoop, ha] at h
    | ok a =>
      cases hb : k.BlockedAddr a with
      | true => simp [outputsLoop, ha, hb] at h
      | false =>
        simp only [outputsLoop, ha, hb] at h
        rcases List.mem_cons.mp ho with rfl | ho
        · exact ⟨a, ha, hb⟩
        · exact ih (by simpa using h) o ho

theorem outputsLoop_returned {σ : Type} (k : Keeper σ) (outs : List InOut) (err : Err)
    (h : (outputsLoop k outs).2 = OutputsExit.returned err) :
    ∃ out ∈ outs, ∃ a, k.AccAddressFromBech32 out.Address = .ok a ∧
      k.BlockedAddr a = true ∧
      err = Wrapf Sentinel.ErrUnauthorized out.Address
        " is not allowed to receive transactions" := by
  induction outs with
  | nil => simp [outputsLoop] at h
  | cons out rest ih =>
    cases ha : k.AccAddressFromBech32 out.Address with
    | error e => simp [outputsLoop, ha] at h
    | ok a =>
      cases hb : k.BlockedAddr a with
      | true =>
        simp only [outputsLoop, ha, hb] at h
        refine ⟨out, List.mem_cons_self _ _, a, ha, hb, ?_⟩
        simpa using h.symm
      | false =>
        simp only [outputsLoop, ha, hb] at h
        obtain ⟨o, ho, b, hob, hbb, herr⟩ := ih (by simpa using h)
        exact ⟨o, List.mem_cons_of_mem _ ho, b, hob, hbb, herr⟩

theorem filter_inputsLoop {σ : Type} (k : Keeper σ) (ctx : σ) (p : Call → Bool)
    (hp : ∀ coins, p (Call.IsSendEnabledCoins coins) = false) (inputs : List InOut) :
    (inputsLoop k ctx inputs).1.filter p = [] := by
  induction inputs with
  | nil => rfl
  | cons inp rest ih =>
    cases hc : k.IsSendEnabledCoins ctx inp.Coins <;>
      simp [inputsLoop, hc, List.filter_cons, hp, ih]

theorem filter_outputsLoop {σ : Type} (k : Keeper σ) (p : Call → Bool)
    (hp1 : ∀ address, p (Call.AccAddressFromBech32 address) = false)
    (hp2 : ∀ addr, p (Call.BlockedAddr addr) = false) (outs : List InOut) :
    (outputsLoop k outs).1.filter p = [] := by
  induction outs with
  | nil => rfl
  | cons out rest ih =>
    cases ha : k.AccAddressFromBech32 out.Address with
    | error e => simp [outputsLoop, ha, List.filter_cons, hp1]
    | ok a =>
      cases hb : k.BlockedAddr a <;>
        simp [outputsLoop, ha, hb, List.filter_cons, hp1, hp2, ih]

/-! ## `MultiSend`: malformed and blocked outputs, disabled inputs -/

/-- C11 (as amended): when every input passes the send-enabled check and an
output address fails to decode while every output before it decodes to an
address that is not blocked, `MultiSend` panics with the decoding error; it
has not invoked `InputOutputCoins` and has emitted no event. -/
theorem MultiSend_malformed_output_panics {σ : Type} (k : Keeper σ) (ctx : σ)
    (msg : MsgMultiSend) (pre : List InOut) (bad : InOut) (post : List InOut) (e : Err)
    (hInputs : ∀ inp ∈ msg.Inputs, k.IsSendEnabledCoins ctx inp.Coins = none)
    (hOutputs : msg.Outputs = pre ++ bad :: post)
    (hPre : ∀ out ∈ pre, ∃ a, k.AccAddressFromBech32 out.Address = .ok a ∧
      k.BlockedAddr a = false)
    (hBad : k.AccAddressFromBech32 bad.Address = .error e) :
    (MultiSend k ctx msg).completion = Completion.panicked e ∧
    (MultiSend k ctx msg).calls.filter Call.isInputOutputCoins = [] ∧
    (MultiSend k ctx msg).calls.filter Call.isEmitEvent = [] := by
  have hIn := inputsLoop_pass k ctx msg.Inputs hInputs
  have hOut := outputsLoop_panics k pre bad post e hPre hBad
  rw [← hOutputs] at hOut
  have f1 := filter_outputsLoop k Call.isInputOutputCoins (fun _ => rfl) (fun _ => rfl)
    msg.Outputs
  have f2 := filter_outputsLoop k Call.isEmitEvent (fun _ => rfl) (fun _ => rfl) msg.Outputs
  have g1 := filter_inputsLoop k ctx Call.isInputOutputCoins (fun _ => rfl) msg.Inputs
  have g2 := filter_inputsLoop k ctx Call.isEmitEvent (fun _ => rfl) msg.Inputs
  rw [hIn] at g1 g2
  unfold MultiSend
  rw [hIn]
  cases hr : outputsLoop k msg.Outputs with
  | mk t1 exit =>
    rw [hr] at hOut f1 f2
    simp only at hOut f1 f2 g1 g2
    subst hOut
    simp [List.filter_append, f1, f2, g1, g2]

/-- The batch with a malformed second output panics on the sample chain. -/
theorem MultiSend_malformed_output_panics_witness :
    (MultiSend sampleKeeper sampleWorld malformedBatchMsg).completion
      = Completion.panicked (Err.collaborator "decoding bech32 failed") ∧
    (MultiSend sampleKeeper sampleWorld malformedBatchMsg).calls.filter
      Call.isInputOutputCoins = [] ∧
    (MultiSend sampleKeeper sampleWorld malformedBatchMsg).calls.filter Call.isEmitEvent = [] :=
  MultiSend_malformed_output_panics sampleKeeper sampleWorld malformedBatchMsg
    [{ Address := "abc1bob", Coins := [{ denom := "uabc", amount := 50 }] }]
    { Address := "garbage", Coins := [{ denom := "uabc", amount := 30 }] }
    [{ Address := "abc1module", Coins := [{ denom := "uabc", amount := 20 }] }]
    (Err.collaborator "decoding bech32 failed")
    (by decide) (by decide) (by simp; exact ⟨[2], by decide, by decide⟩) (by decide)

/-- C11 fails as stated: the second output address is malformed, but the first
output is blocked, and `MultiSend` returns `ErrUnauthorized` to its caller
instead of panicking. -/
theorem MultiSend_blocked_before_malformed_returns :
    blockedFirstBatchMsg.Outputs.map InOut.Address = ["abc1module", "garbage"] ∧
    sampleKeeper.AccAddressFromBech32 "garbage"
      = .error (Err.collaborator "decoding bech32 failed") ∧
    (MultiSend sampleKeeper sampleWorld blockedFirstBatchMsg).completion
      = Completion.returned none (some (Wrapf Sentinel.ErrUnauthorized "abc1module"
          " is not allowed to receive transactions")) := by
  decide

/-- C12 (as amended): when every input passes the send-enabled check,
`MultiSend` returns to its caller and some output decodes to a blocked
address, the call returns
no response and `ErrUnauthorized` wrapped with "<address> is not allowed to
receive transactions" for a blocked output of the message, and it never
invokes `InputOutputCoins`; the position of the blocked output is arbitrary. -/
theorem MultiSend_blocked_output_rejected {σ : Type} (k : Keeper σ) (ctx : σ)
    (msg : MsgMultiSend) (blockedOut : InOut) (recipient : AccAddress)
    (hInputs : ∀ inp ∈ msg.Inputs, k.IsSendEnabledCoins ctx inp.Coins = none)
    (hReturns : ∃ resp err, (MultiSend k ctx msg).completion = Completion.returned resp err)
    (hMem : blockedOut ∈ msg.Outputs)
    (hDec : k.AccAddressFromBech32 blockedOut.Address = .ok recipient)
    (hBlocked : k.BlockedAddr recipient = true) :
    (∃ out ∈ msg.Outputs, ∃ a, k.AccAddressFromBech32 out.Address = .ok a ∧
      k.BlockedAddr a = true ∧
      (MultiSend k ctx msg).completion
        = Completion.returned none (some (Wrapf Sentinel.ErrUnauthorized out.Address
            " is not allowed to receive transactions"))) ∧
    (MultiSend k ctx msg).calls.filter Call.isInputOutputCoins = [] := by
  have hIn := inputsLoop_pass k ctx msg.Inputs hInputs
  have f1 := filter_outputsLoop k Call.isInputOutputCoins (fun _ => rfl) (fun _ => rfl)
    msg.Outputs
  have g1 := filter_inputsLoop k ctx Call.isInputOutputCoins (fun _ => rfl) msg.Inputs
  rw [hIn] at g1
  obtain ⟨resp, err, hRet⟩ := hReturns
  unfold MultiSend at hRet ⊢
  rw [hIn] at hRet ⊢
  cases hr : outputsLoop k msg.Outputs with
  | mk t1 exit =>
    rw [hr] at f1
    simp only at f1 g1
    cases exit with
    | panicked v => simp [hr] at hRet
    | completed =>
      have hAll := outputsLoop_completed k msg.Outputs (by rw [hr])
      obtain ⟨a, ha, hb⟩ := hAll blockedOut hMem
      rw [hDec] at ha
      cases ha
      rw [hBlocked] at hb
      cases hb
    | returned e =>
      obtain ⟨out, hOut, a, ha, hb, he⟩ := outputsLoop_returned k msg.Outputs e (by rw [hr])
      refine ⟨⟨out, hOut, a, ha, hb, ?_⟩, ?_⟩
      · simp [he]
      · simp [List.filter_append, f1, g1]

/-- The batch whose last output is the blocked module account is refused. -/
theorem MultiSend_blocked_output_rejected_witness :
    (∃ out ∈ blockedLastBatchMsg.Outputs, ∃ a,
      sampleKeeper.AccAddressFromBech32 out.Address = .ok a ∧
      sampleKeeper.BlockedAddr a = true ∧
      (MultiSend sampleKeeper sampleWorld blockedLastBatchMsg).completion
        = Completion.returned none (some (Wrapf Sentinel.ErrUnauthorized out.Address
            " is not allowed to receive transactions"))) ∧
    (MultiSend sampleKeeper sampleWorld blockedLastBatchMsg).calls.filter
      Call.isInputOutputCoins = [] :=
  MultiSend_blocked_output_rejected sampleKeeper sampleWorld blockedLastBatchMsg
    { Address := "abc1module", Coins := [{ denom := "uabc", amount := 50 }] } [9]
    (by decide) ⟨_, _, rfl⟩ (by decide) (by decide) (by decide)

/-- C12 fails as stated: the one output is the blocked module account and
`MultiSend` returns to its caller, but the input holds a frozen denomination:
the error returned is the send-enabled error of line 130, not
`ErrUnauthorized`. -/
theorem MultiSend_blocked_output_send_disabled :
    frozenBlockedBatchMsg.Outputs.map InOut.Address = ["abc1module"] ∧
    sampleKeeper.AccAddressFromBech32 "abc1module" = .ok [9] ∧
    sampleKeeper.BlockedAddr [9] = true ∧
    (MultiSend sampleKeeper sampleWorld frozenBlockedBatchMsg).completion
      = Completion.returned none
          (some (Err.collaborator "ufrozen transfers are currently disabled")) ∧
    (MultiSend sampleKeeper sampleWorld frozenBlockedBatchMsg).completion
      ≠ Completion.returned none (some (Wrapf Sentinel.ErrUnauthorized "abc1module"
          " is not allowed to receive transactions")) := by
  decide

/-- C13: when the coins of some input fail the send-enabled check, `MultiSend`
returns no response and the error of the first such input; the calls it has
made are the send-enabled checks of the inputs up to that one and nothing
else (no output decoded, no blocklist consulted, no `InputOutputCoins`, no
event), and the state is left as it was. -/
theorem MultiSend_send_disabled_aborts {σ : Type} (k : Keeper σ) (ctx : σ)
    (msg : MsgMultiSend)
    (hAny : ∃ inp ∈ msg.Inputs, k.IsSendEnabledCoins ctx inp.Coins ≠ none) :
    ∃ pre bad post e, msg.Inputs = pre ++ bad :: post ∧
      (∀ inp ∈ pre, k.IsSendEnabledCoins ctx inp.Coins = none) ∧
      k.IsSendEnabledCoins ctx bad.Coins = some e ∧
      (MultiSend k ctx msg).completion = Completion.returned none (some e) ∧
      (MultiSend k ctx msg).calls
        = (pre ++ [bad]).map (fun inp => Call.IsSendEnabledCoins inp.Coins) ∧
      (MultiSend k ctx msg).state = ctx := by
  obtain ⟨pre, bad, post, e, hEq, hPre, hBad⟩ := exists_first_failing_input k ctx msg.Inputs hAny
  refine ⟨pre, bad, post, e, hEq, hPre, hBad, ?_⟩
  have hIn := inputsLoop_fail k ctx pre bad post e hPre hBad
  rw [← hEq] at hIn
  unfold MultiSend
  rw [hIn]
  exact ⟨rfl, rfl, rfl⟩

/-- The batch whose second and third inputs are frozen stops at the second. -/
theorem MultiSend_send_disabled_aborts_witness :
    (∃ inp ∈ frozenBatchMsg.Inputs,
      sampleKeeper.IsSendEnabledCoins sampleWorld inp.Coins ≠ none) ∧
    ∃ pre bad post e, frozenBatchMsg.Inputs = pre ++ bad :: post ∧
      (∀ inp ∈ pre, sampleKeeper.IsSendEnabledCoins sampleWorld inp.Coins = none) ∧
      sampleKeeper.IsSendEnabledCoins sampleWorld bad.Coins = some e ∧
      (MultiSend sampleKeeper sampleWorld frozenBatchMsg).completion
        = Completion.returned none (some e) ∧
      (MultiSend sampleKeeper sampleWorld frozenBatchMsg).calls
        = (pre ++ [bad]).map (fun inp => Call.IsSendEnabledCoins inp.Coins) ∧
      (MultiSend sampleKeeper sampleWorld frozenBatchMsg).state = sampleWorld :=
  ⟨by decide,
    MultiSend_send_disabled_aborts sampleKeeper sampleWorld frozenBatchMsg (by decide)⟩

/-! ## Events -/

theorem Send_event_only_on_success {σ : Type} (k : Keeper σ) (ctx : σ) (msg : MsgSend) :
    (Send k ctx msg).calls.filter Call.isEmitEvent = [] ∨
    ((Send k ctx msg).err = none ∧ (Send k ctx msg).resp = some () ∧
      (Send k ctx msg).calls.filter Call.isEmitEvent = [Call.EmitEvent messageEvent]) := by
  unfold Send
  dsimp only
  repeat' split
  all_goals
    simp_all [List.filter_append, List.filter_cons, filter_gaugeCalls, Call.isEmitEvent]

theorem Send_failed_emits_no_event {σ : Type} (k : Keeper σ) (ctx : σ) (msg : MsgSend)
    (hFailed : (Send k ctx msg).err ≠ none) :
    (Send k ctx msg).calls.filter Call.isEmitEvent = [] := by
  rcases Send_event_only_on_success k ctx msg with h | ⟨h, _, _⟩
  · exact h
  · exact absurd h hFailed

theorem Send_local_success_emits_one_event {σ : Type} (k : Keeper σ) (ctx : σ)
    (msg : MsgSend) (hrp : String) (bz : List Nat)
    (hDec : k.DecodeAndConvert msg.ToAddress = .ok (hrp, bz))
    (hNat : k.GetNativeHrp ctx = .ok hrp)
    (hOk : (Send k ctx msg).err = none) :
    (Send k ctx msg).calls.filter Call.isEmitEvent = [Call.EmitEvent messageEvent] := by
  have key : (Send k ctx msg).err ≠ none ∨
      (Send k ctx msg).calls.filter Call.isEmitEvent = [Call.EmitEvent messageEvent] := by
    unfold Send
    simp only [hDec, hNat]
    repeat' split
    all_goals
      simp_all [List.filter_append, List.filter_cons, filter_gaugeCalls, Call.isEmitEvent]
  rcases key with h | h
  · exact absurd hOk h
  · exact h

theorem MultiSend_event_iff_success {σ : Type} (k : Keeper σ) (ctx : σ)
    (msg : MsgMultiSend) :
    ((MultiSend k ctx msg).completion = Completion.returned (some ()) none ∧
      (MultiSend k ctx msg).calls.filter Call.isEmitEvent = [Call.EmitEvent messageEvent]) ∨
    ((MultiSend k ctx msg).completion ≠ Completion.returned (some ()) none ∧
      (MultiSend k ctx msg).calls.filter Call.isEmitEvent = []) := by
  have g := filter_inputsLoop k ctx Call.isEmitEvent (fun _ => rfl) msg.Inputs
  have f := filter_outputsLoop k Call.isEmitEvent (fun _ => rfl) (fun _ => rfl) msg.Outputs
  unfold MultiSend
  repeat' split
  all_goals
    simp_all [List.filter_append, List.filter_cons, Call.isEmitEvent, -List.filter_eq_nil_iff]

theorem Send_remote_emits_no_event {σ : Type} (k : Keeper σ) (ctx : σ) (msg : MsgSend)
    (hrp nativeHrp : String) (bz : List Nat)
    (hDec : k.DecodeAndConvert msg.ToAddress = .ok (hrp, bz))
    (hNat : k.GetNativeHrp ctx = .ok nativeHrp)
    (hForeign : hrp ≠ nativeHrp) :
    (Send k ctx msg).calls.filter Call.isEmitEvent = [] := by
  unfold Send
  simp only [hDec, hNat]
  repeat' split
  all_goals simp_all [List.filter_append, List.filter_cons, Call.isEmitEvent]

/-- C14 (as amended): a call of `Send` that succeeds on the local path (the
recipient's hrp is the native one) emits the message event exactly once, and
so does a call of `MultiSend` that succeeds; a call of `Send` on the remote
path (the recipient's hrp is foreign) emits no event, whether it succeeds or
fails, and neither does any call of `Send` that fails or any call of
`MultiSend` that does not succeed. -/
theorem events_emitted {σ : Type} (k : Keeper σ) (ctx : σ) (msg : MsgSend)
    (batch : MsgMultiSend) :
    (∀ hrp bz, k.DecodeAndConvert msg.ToAddress = .ok (hrp, bz) →
      k.GetNativeHrp ctx = .ok hrp → (Send k ctx msg).err = none →
      (Send k ctx msg).calls.filter Call.isEmitEvent = [Call.EmitEvent messageEvent]) ∧
    (∀ hrp nativeHrp bz, k.DecodeAndConvert msg.ToAddress = .ok (hrp, bz) →
      k.GetNativeHrp ctx = .ok nativeHrp → hrp ≠ nativeHrp →
      (Send k ctx msg).calls.filter Call.isEmitEvent = []) ∧
    ((Send k ctx msg).err ≠ none →
      (Send k ctx msg).calls.filter Call.isEmitEvent = []) ∧
    ((MultiSend k ctx batch).completion = Completion.returned (some ()) none →
      (MultiSend k ctx batch).calls.filter Call.isEmitEvent
        = [Call.EmitEvent messageEvent]) ∧
    ((MultiSend k ctx batch).completion ≠ Completion.returned (some ()) none →
      (MultiSend k ctx batch).calls.filter Call.isEmitEvent = []) := by
  refine ⟨?_, ?_, ?_, ?_, ?_⟩
  · intro hrp bz hDec hNat hOk
    exact Send_local_success_emits_one_event k ctx msg hrp bz hDec hNat hOk
  · intro hrp nativeHrp bz hDec hNat hForeign
    exact Send_remote_emits_no_event k ctx msg hrp nativeHrp bz hDec hNat hForeign
  · exact Send_failed_emits_no_event k ctx msg
  · intro hOk
    rcases MultiSend_event_iff_success k ctx batch with ⟨_, h⟩ | ⟨h, _⟩
    · exact h
    · exact absurd hOk h
  · intro hNot
    rcases MultiSend_event_iff_success k ctx batch with ⟨h, _⟩ | ⟨_, h⟩
    · exact absurd h hNot
    · exact h

/-- On the sample chain: one event for the local example and for the batch of
Alice and Bob, none for the send to the blocked account. -/
theorem events_emitted_witness :
    (Send sampleKeeper sampleWorld localMsg).calls.filter Call.isEmitEvent
      = [Call.EmitEvent messageEvent] ∧
    (MultiSend sampleKeeper sampleWorld batchMsg).calls.filter Call.isEmitEvent
      = [Call.EmitEvent messageEvent] ∧
    (Send sampleKeeper sampleWorld blockedMsg).calls.filter Call.isEmitEvent = [] ∧
    (MultiSend sampleKeeper sampleWorld blockedLastBatchMsg).calls.filter
      Call.isEmitEvent = [] :=
  ⟨(events_emitted sampleKeeper sampleWorld localMsg batchMsg).1 "abc" [2]
      (by decide) (by decide) (by decide),
    (events_emitted sampleKeeper sampleWorld localMsg batchMsg).2.2.2.1 (by decide),
    (events_emitted sampleKeeper sampleWorld blockedMsg batchMsg).2.2.1 (by decide),
    (events_emitted sampleKeeper sampleWorld localMsg blockedLastBatchMsg).2.2.2.2
      (by decide)⟩

/-- C14 fails as stated: the spec's forwarding example succeeds (`Send`
returns a response and a `nil` error after one ics20 `Transfer`) and `Send`
has emitted no event. -/
theorem Send_remote_success_emits_no_event :
    (Send sampleKeeper sampleWorld remoteMsg).err = none ∧
    (Send sampleKeeper sampleWorld remoteMsg).resp = some () ∧
    ((Send sampleKeeper sampleWorld remoteMsg).calls.filter Call.isTransfer).length = 1 ∧
    (Send sampleKeeper sampleWorld remoteMsg).calls.filter Call.isEmitEvent = [] := by
  decide

/-! ## The routing decision -/

/-- C15: once the send-enabled check has passed, the sender has decoded, the
recipient's hrp has been decoded and the native hrp obtained, `Send` takes
the local path exactly when the two hrp strings are equal: if they are equal
it decodes the recipient in full and never looks up a channel record; if they
differ in any character (in letter case, for one) it looks up the record of
the decoded hrp and calls neither `AccAddressFromBech32` on the recipient,
`BlockedAddr` nor `SendCoins`. -/
theorem Send_routes_by_exact_hrp {σ : Type} (k : Keeper σ) (ctx : σ) (msg : MsgSend)
    (sender : AccAddress) (hrp nativeHrp : String) (bz : List Nat)
    (hEnabled : k.IsSendEnabledCoins ctx msg.Amount = none)
    (hSender : k.AccAddressFromBech32 msg.FromAddress = .ok sender)
    (hDec : k.DecodeAndConvert msg.ToAddress = .ok (hrp, bz))
    (hNat : k.GetNativeHrp ctx = .ok nativeHrp) :
    (hrp = nativeHrp →
      (Send k ctx msg).calls.filter Call.isAccAddressFromBech32
        = [Call.AccAddressFromBech32 msg.FromAddress,
            Call.AccAddressFromBech32 msg.ToAddress] ∧
      (Send k ctx msg).calls.filter Call.isGetHrpIbcRecord = []) ∧
    (hrp ≠ nativeHrp →
      (Send k ctx msg).calls.filter Call.isGetHrpIbcRecord = [Call.GetHrpIbcRecord hrp] ∧
      (Send k ctx msg).calls.filter Call.isAccAddressFromBech32
        = [Call.AccAddressFromBech32 msg.FromAddress] ∧
      (Send k ctx msg).calls.filter Call.isBlockedAddr = [] ∧
      (Send k ctx msg).calls.filter Call.isSendCoins = []) := by
  unfold Send
  simp only [hEnabled, hSender, hDec, hNat]
  constructor
  · intro hEq
    simp only [hEq, if_true]
    repeat' split
    all_goals
      simp_all [List.filter_append, List.filter_cons, filter_gaugeCalls,
        Call.isAccAddressFromBech32, Call.isGetHrpIbcRecord]
  · intro hNe
    simp only [hNe, if_false]
    repeat' split
    all_goals
      simp_all [List.filter_append, List.filter_cons, Call.isAccAddressFromBech32,
        Call.isGetHrpIbcRecord, Call.isBlockedAddr, Call.isSendCoins]

/-- With the native hrp registered as `ABC`, the recipient `abc1bob` (hrp
`abc`) is foreign: its channel record is looked up and no coins are sent. -/
theorem Send_routes_by_exact_hrp_witness :
    "abc" ≠ "ABC" ∧
    ((Send sampleKeeper upperWorld localMsg).calls.filter Call.isGetHrpIbcRecord
        = [Call.GetHrpIbcRecord "abc"] ∧
      (Send sampleKeeper upperWorld localMsg).calls.filter Call.isAccAddressFromBech32
        = [Call.AccAddressFromBech32 localMsg.FromAddress] ∧
      (Send sampleKeeper upperWorld localMsg).calls.filter Call.isBlockedAddr = [] ∧
      (Send sampleKeeper upperWorld localMsg).calls.filter Call.isSendCoins = []) :=
  ⟨by decide,
    (Send_routes_by_exact_hrp sampleKeeper upperWorld localMsg [1] "abc" "ABC" [2]
      (by decide) (by decide) (by decide) (by decide)).2 (by decide)⟩

/-! ## The forwarding request, field by field -/

/-- C16: every forwarding request `m` that `Send` submits has, where `sender`
is the decoded sender, `ibcRecord` the record of the recipient's hrp and
`clientState` the state of the client behind its channel: the port of
`GetPort`, the record's `SourceChannel`, the single coin of the amount, the
string form of `sender`, the message's `ToAddress` unchanged, the timeout
height computed on lines 107-108 and a timeout timestamp of `0`. -/
theorem Send_request_fields {σ : Type} (k : Keeper σ) (ctx : σ) (msg : MsgSend)
    (m : MsgTransfer) (sender : AccAddress) (hrp : String) (bz : List Nat)
    (ibcRecord : HrpIbcRecord) (clientId : String) (clientState : ClientState)
    (hSender : k.AccAddressFromBech32 msg.FromAddress = .ok sender)
    (hDec : k.DecodeAndConvert msg.ToAddress = .ok (hrp, bz))
    (hRecord : k.GetHrpIbcRecord ctx hrp = .ok ibcRecord)
    (hClient : k.GetChannelClientState ctx (k.GetPort ctx) ibcRecord.SourceChannel
      = .ok (clientId, clientState))
    (hSubmitted : Call.Transfer m ∈ (Send k ctx msg).calls) :
    m.SourcePort = k.GetPort ctx ∧
    m.SourceChannel = ibcRecord.SourceChannel ∧
    msg.Amount = [m.Token] ∧
    m.Sender = k.addrString sender ∧
    m.Receiver = msg.ToAddress ∧
    m.TimeoutHeight = NewHeight clientState.GetLatestHeight.revisionNumber
      (uint64Add clientState.GetLatestHeight.revisionHeight ibcRecord.IcsToHeightOffset) ∧
    m.TimeoutTimestamp = 0 := by
  have key : msg.Amount = [m.Token] ∧
      m = NewMsgTransfer (k.GetPort ctx) ibcRecord.SourceChannel m.Token
        (k.addrString sender) msg.ToAddress
        (NewHeight clientState.GetLatestHeight.revisionNumber
          (uint64Add clientState.GetLatestHeight.revisionHeight ibcRecord.IcsToHeightOffset))
        0 := by
    unfold Send at hSubmitted
    simp only [hSender, hDec] at hSubmitted
    repeat' split at hSubmitted
    all_goals simp_all [NewMsgTransfer, transfer_not_mem_gaugeCalls]
  obtain ⟨hAmt, hm⟩ := key
  refine ⟨?_, ?_, hAmt, ?_, ?_, ?_, ?_⟩ <;> (rw [hm]; rfl)

/-- The request of the spec's example, field by field. -/
theorem Send_request_fields_witness :
    Call.Transfer (NewMsgTransfer "transfer" "channel-7" { denom := "uabc", amount := 50 }
        "abc1alice" "xyz1carol" (NewHeight 1 1500) 0)
      ∈ (Send sampleKeeper sampleWorld remoteMsg).calls ∧
    ("transfer" = sampleKeeper.GetPort sampleWorld ∧
      "channel-7" = "channel-7" ∧
      remoteMsg.Amount = [{ denom := "uabc", amount := 50 }] ∧
      "abc1alice" = sampleKeeper.addrString [1] ∧
      "xyz1carol" = remoteMsg.ToAddress ∧
      NewHeight 1 1500 = NewHeight 1 (uint64Add 500 1000) ∧
      (0 : Nat) = 0) :=
  ⟨by decide,
    Send_request_fields sampleKeeper sampleWorld remoteMsg
      (NewMsgTransfer "transfer" "channel-7" { denom := "uabc", amount := 50 }
        "abc1alice" "xyz1carol" (NewHeight 1 1500) 0)
      [1] "xyz" [3] { SourceChannel := "channel-7", IcsToHeightOffset := 1000 }
      "07-tendermint-0" { latestHeight := { revisionNumber := 1, revisionHeight := 500 } }
      (by decide) (by decide) (by decide) (by decide) (by decide)⟩

/-! ## The result of a submission -/

/-- C17: once `Send` has submitted the forwarding request `m`, the error it
returns is the error the ics20 `Transfer` returned for `m`, unchanged, and
the state it leaves is the one `Transfer` left; so `Send` returns a `nil`
error exactly when the submission does. -/
theorem Send_returns_transfer_error {σ : Type} (k : Keeper σ) (ctx : σ) (msg : MsgSend)
    (m : MsgTransfer) (hSubmitted : Call.Transfer m ∈ (Send k ctx msg).calls) :
    (Send k ctx msg).err = (k.Transfer ctx m).1 ∧
    (Send k ctx msg).state = (k.Transfer ctx m).2 ∧
    ((Send k ctx msg).err = none ↔ (k.Transfer ctx m).1 = none) := by
  have key : (Send k ctx msg).err = (k.Transfer ctx m).1 ∧
      (Send k ctx msg).state = (k.Transfer ctx m).2 := by
    unfold Send at hSubmitted ⊢
    dsimp only at hSubmitted ⊢
    repeat' split at hSubmitted
    all_goals simp_all [transfer_not_mem_gaugeCalls]
  exact ⟨key.1, key.2, by rw [key.1]⟩

/-- A refusal of the ics20 server comes back from `Send` as it is. -/
theorem Send_returns_transfer_error_witness :
    Call.Transfer (NewMsgTransfer "transfer" "channel-7" { denom := "uabc", amount := 50 }
        "abc1alice" "xyz1carol" (NewHeight 1 1500) 0)
      ∈ (Send rejectingKeeper sampleWorld remoteMsg).calls ∧
    (Send rejectingKeeper sampleWorld remoteMsg).err
      = some (Err.collaborator "channel is not open") :=
  ⟨by decide,
    (Send_returns_transfer_error rejectingKeeper sampleWorld remoteMsg
      (NewMsgTransfer "transfer" "channel-7" { denom := "uabc", amount := 50 }
        "abc1alice" "xyz1carol" (NewHeight 1 1500) 0) (by decide)).1⟩

/-- C19 (as amended): for every forwarding request `m` that `Send` submits,
where `ibcRecord` is the record of the recipient's hrp and `clientState` the
state of the client behind its channel, whenever the sum of the latest
revision height and `IcsToHeightOffset` is below `2 ^ 64`, the revision height
of `m.TimeoutHeight` is at least the latest revision height. -/
theorem Send_timeoutHeight_not_before_latest {σ : Type} (k : Keeper σ) (ctx : σ)
    (msg : MsgSend) (m : MsgTransfer) (hrp : String) (bz : List Nat)
    (ibcRecord : HrpIbcRecord) (clientId : String) (clientState : ClientState)
    (hDec : k.DecodeAndConvert msg.ToAddress = .ok (hrp, bz))
    (hRecord : k.GetHrpIbcRecord ctx hrp = .ok ibcRecord)
    (hClient : k.GetChannelClientState ctx (k.GetPort ctx) ibcRecord.SourceChannel
      = .ok (clientId, clientState))
    (hSubmitted : Call.Transfer m ∈ (Send k ctx msg).calls)
    (hFits : clientState.latestHeight.revisionHeight + ibcRecord.IcsToHeightOffset < 2 ^ 64) :
    clientState.latestHeight.revisionHeight ≤ m.TimeoutHeight.revisionHeight := by
  rw [Send_transfer_timeoutHeight k ctx msg m hrp bz ibcRecord clientId clientState
    hDec hRecord hClient hSubmitted]
  simp only [NewHeight, uint64Add, uint64Size]
  rw [Nat.mod_eq_of_lt hFits]
  exact Nat.le_add_right _ _

/-- The request of the spec's example expires after the height it was
computed from. -/
theorem Send_timeoutHeight_not_before_latest_witness :
    Call.Transfer (NewMsgTransfer "transfer" "channel-7" { denom := "uabc", amount := 50 }
        "abc1alice" "xyz1carol" (NewHeight 1 1500) 0)
      ∈ (Send sampleKeeper sampleWorld remoteMsg).calls ∧
    500 + 1000 < 2 ^ 64 ∧
    500 ≤ (NewHeight 1 1500).revisionHeight :=
  ⟨by decide, by decide,
    Send_timeoutHeight_not_before_latest sampleKeeper sampleWorld remoteMsg
      (NewMsgTransfer "transfer" "channel-7" { denom := "uabc", amount := 50 }
        "abc1alice" "xyz1carol" (NewHeight 1 1500) 0)
      "xyz" [3] { SourceChannel := "channel-7", IcsToHeightOffset := 1000 }
      "07-tendermint-0" { latestHeight := { revisionNumber := 1, revisionHeight := 500 } }
      (by decide) (by decide) (by decide) (by decide) (by decide)⟩

/-- C19 fails as stated: with the client at height `{1, 500}` and an offset of
`2 ^ 64 - 100`, both of them `uint64` values, the one request `Send` submits
has revision height `400`, below the latest revision height `500`. -/
theorem Send_timeoutHeight_before_latest :
    sampleKeeper.GetHrpIbcRecord hugeOffsetWorld "xyz"
      = .ok { SourceChannel := "channel-7", IcsToHeightOffset := 18446744073709551516 } ∧
    18446744073709551516 < 2 ^ 64 ∧
    sampleKeeper.GetChannelClientState hugeOffsetWorld "transfer" "channel-7"
      = .ok ("07-tendermint-0",
          { latestHeight := { revisionNumber := 1, revisionHeight := 500 } }) ∧
    (Send sampleKeeper hugeOffsetWorld remoteMsg).calls.filter Call.isTransfer
      = [Call.Transfer (NewMsgTransfer "transfer" "channel-7" { denom := "uabc", amount := 50 }
          "abc1alice" "xyz1carol" (NewHeight 1 400) 0)] ∧
    (NewHeight 1 400).revisionHeight < 500 := by
  decide

/-! ## Error and response -/

theorem Send_response_with_error_only_after_transfer {σ : Type} (k : Keeper σ) (ctx : σ)
    (msg : MsgSend) :
    (Send k ctx msg).err = none ∨ (Send k ctx msg).resp = none ∨
    ((Send k ctx msg).calls.filter Call.isTransfer).length = 1 := by
  unfold Send
  dsimp only
  repeat' split
  all_goals simp_all [List.filter_cons, Call.isTransfer]

theorem MultiSend_error_has_no_response {σ : Type} (k : Keeper σ) (ctx : σ)
    (msg : MsgMultiSend) (resp : Option Unit) (e : Err)
    (h : (MultiSend k ctx msg).completion = Completion.returned resp (some e)) :
    resp = none := by
  unfold MultiSend at h
  repeat' split at h
  all_goals simp_all

/-- C20 at its failing input: the ics20 server refuses the forwarding example,
and `Send` returns that error together with a response that is not `nil`. -/
theorem Send_remote_failure_keeps_response :
    (Send rejectingKeeper sampleWorld remoteMsg).err
      = some (Err.collaborator "channel is not open") ∧
    (Send rejectingKeeper sampleWorld remoteMsg).resp = some () ∧
    (Send rejectingKeeper sampleWorld remoteMsg).resp ≠ none := by
  decide

/-! ## Two calls with the same message -/

theorem Send_answers_alike {σ : Type} (k : Keeper σ) (ctx1 ctx2 : σ) (msg : MsgSend)
    (hAlike : AnswersAlike k ctx1 ctx2) :
    (Send k ctx2 msg).resp = (Send k ctx1 msg).resp ∧
    (Send k ctx2 msg).err = (Send k ctx1 msg).err ∧
    (Send k ctx2 msg).calls = (Send k ctx1 msg).calls := by
  obtain ⟨h1, h2, h3, h4, h5, h6, h7⟩ := hAlike
  unfold Send
  simp only [h1, h2, h3, h4, h5]
  cases k.IsSendEnabledCoins ctx1 msg.Amount with
  | some e => exact ⟨rfl, rfl, rfl⟩
  | none =>
    cases k.AccAddressFromBech32 msg.FromAddress with
    | error e => exact ⟨rfl, rfl, rfl⟩
    | ok sender =>
      cases k.DecodeAndConvert msg.ToAddress with
      | error e => exact ⟨rfl, rfl, rfl⟩
      | ok decoded =>
        obtain ⟨hrp, bz⟩ := decoded
        cases k.GetNativeHrp ctx1 with
        | error e => exact ⟨rfl, rfl, rfl⟩
        | ok nativeHrp =>
          by_cases hEq : hrp = nativeHrp
          · simp only [hEq, if_true]
            cases k.AccAddressFromBech32 msg.ToAddress with
            | error e => exact ⟨rfl, rfl, rfl⟩
            | ok recipient =>
              cases hb : k.BlockedAddr recipient with
              | true => simp [hb]
              | false =>
                simp only [hb, Bool.false_eq_true, if_false]
                have h := h6 sender recipient msg.Amount
                cases hs2 : k.SendCoins ctx2 sender recipient msg.Amount with
                | mk e2 c2 =>
                  cases hs1 : k.SendCoins ctx1 sender recipient msg.Amount with
                  | mk e1 c1 =>
                    rw [hs1, hs2] at h
                    simp only at h
                    subst h
                    cases e2 <;> simp
          · simp only [hEq, if_false]
            cases k.GetHrpIbcRecord ctx1 hrp with
            | error e => exact ⟨rfl, rfl, rfl⟩
            | ok ibcRecord =>
              match msg.Amount with
              | [] => exact ⟨rfl, rfl, rfl⟩
              | _ :: _ :: _ => exact ⟨rfl, rfl, rfl⟩
              | [coin] =>
                simp only
                cases k.GetChannelClientState ctx1 (k.GetPort ctx1) ibcRecord.SourceChannel with
                | error e => exact ⟨rfl, rfl, rfl⟩
                | ok cs =>
                  obtain ⟨clientId, clientState⟩ := cs
                  exact ⟨rfl, h7 _, rfl⟩

theorem sendCoins_not_mem_gaugeCalls (amt : Coins) (sender recipient : AccAddress)
    (a : Coins) : Call.SendCoins sender recipient a ∉ gaugeCalls amt := by
  intro h
  rcases gaugeCalls_shape amt _ h with ⟨d, v, hc⟩
  cases hc

theorem Send_success_one_effect {σ : Type} (k : Keeper σ) (ctx : σ) (msg : MsgSend) :
    (Send k ctx msg).err ≠ none ∨
    ((Send k ctx msg).resp = some () ∧
      ((Send k ctx msg).calls.filter Call.isEffect).length = 1) := by
  unfold Send
  dsimp only
  repeat' split
  all_goals
    simp_all [List.filter_append, List.filter_cons, filter_gaugeCalls, Call.isEffect]

theorem Send_state_after_sendCoins {σ : Type} (k : Keeper σ) (ctx : σ) (msg : MsgSend)
    (sender recipient : AccAddress) (amt : Coins)
    (h : Call.SendCoins sender recipient amt ∈ (Send k ctx msg).calls) :
    (Send k ctx msg).state = (k.SendCoins ctx sender recipient amt).2 := by
  unfold Send at h ⊢
  dsimp only at h ⊢
  repeat' split at h
  all_goals simp_all [sendCoins_not_mem_gaugeCalls]

theorem Send_state_after_transfer {σ : Type} (k : Keeper σ) (ctx : σ) (msg : MsgSend)
    (m : MsgTransfer) (h : Call.Transfer m ∈ (Send k ctx msg).calls) :
    (Send k ctx msg).state = (k.Transfer ctx m).2 := by
  unfold Send at h ⊢
  dsimp only at h ⊢
  repeat' split at h
  all_goals simp_all [transfer_not_mem_gaugeCalls]

/-- C18: when the collaborators answer after a first `Send` as they did
before it, and that first `Send` succeeds, then it returns a response and
its call log holds exactly one state-changing call (`SendCoins` or the ics20
`Transfer`); a second `Send` of the same message succeeds too, returns a
response and makes the same collaborator calls with the same arguments, in
the same order; and nothing is remembered from the first call: the
state-changing call is made again, on the state the first call left, so the
state after the second call is that collaborator's effect applied a second
time. -/
theorem Send_twice_same_calls {σ : Type} (k : Keeper σ) (ctx : σ) (msg : MsgSend)
    (hAlike : AnswersAlike k ctx (Send k ctx msg).state)
    (hOk : (Send k ctx msg).err = none) :
    (Send k ctx msg).resp = some () ∧
    (Send k (Send k ctx msg).state msg).err = none ∧
    (Send k (Send k ctx msg).state msg).resp = some () ∧
    (Send k (Send k ctx msg).state msg).calls = (Send k ctx msg).calls ∧
    ((Send k ctx msg).calls.filter Call.isEffect).length = 1 ∧
    (∀ sender recipient amt, Call.SendCoins sender recipient amt ∈ (Send k ctx msg).calls →
      (Send k ctx msg).state = (k.SendCoins ctx sender recipient amt).2 ∧
      (Send k (Send k ctx msg).state msg).state
        = (k.SendCoins (Send k ctx msg).state sender recipient amt).2) ∧
    (∀ m, Call.Transfer m ∈ (Send k ctx msg).calls →
      (Send k ctx msg).state = (k.Transfer ctx m).2 ∧
      (Send k (Send k ctx msg).state msg).state
        = (k.Transfer (Send k ctx msg).state m).2) := by
  obtain ⟨hResp, hErr, hCalls⟩ := Send_answers_alike k ctx (Send k ctx msg).state msg hAlike
  have hOne : (Send k ctx msg).resp = some () ∧
      ((Send k ctx msg).calls.filter Call.isEffect).length = 1 := by
    rcases Send_success_one_effect k ctx msg with h | h
    · exact absurd hOk h
    · exact h
  refine ⟨hOne.1, hErr.trans hOk, hResp.trans hOne.1, hCalls, hOne.2, ?_, ?_⟩
  · intro sender recipient amt hMem
    refine ⟨Send_state_after_sendCoins k ctx msg sender recipient amt hMem, ?_⟩
    apply Send_state_after_sendCoins
    rw [hCalls]
    exact hMem
  · intro m hMem
    refine ⟨Send_state_after_transfer k ctx msg m hMem, ?_⟩
    apply Send_state_after_transfer
    rw [hCalls]
    exact hMem

/-- The forwarding example, sent twice on the sample chain: the second call
makes the calls of the first, its state is the ics20 server's effect on the
state the first call left, and the chain then holds the request twice. -/
theorem Send_twice_same_calls_witness :
    (Send sampleKeeper (Send sampleKeeper sampleWorld remoteMsg).state remoteMsg).err = none ∧
    (Send sampleKeeper (Send sampleKeeper sampleWorld remoteMsg).state remoteMsg).calls
      = (Send sampleKeeper sampleWorld remoteMsg).calls ∧
    ((Send sampleKeeper sampleWorld remoteMsg).calls.filter Call.isEffect).length = 1 ∧
    ((Send sampleKeeper sampleWorld remoteMsg).state
        = (sampleKeeper.Transfer sampleWorld
            (NewMsgTransfer "transfer" "channel-7" { denom := "uabc", amount := 50 }
              "abc1alice" "xyz1carol" (NewHeight 1 1500) 0)).2 ∧
      (Send sampleKeeper (Send sampleKeeper sampleWorld remoteMsg).state remoteMsg).state
        = (sampleKeeper.Transfer (Send sampleKeeper sampleWorld remoteMsg).state
            (NewMsgTransfer "transfer" "channel-7" { denom := "uabc", amount := 50 }
              "abc1alice" "xyz1carol" (NewHeight 1 1500) 0)).2) ∧
    (Send sampleKeeper (Send sampleKeeper sampleWorld remoteMsg).state
      remoteMsg).state.submitted
      = [NewMsgTransfer "transfer" "channel-7" { denom := "uabc", amount := 50 }
          "abc1alice" "xyz1carol" (NewHeight 1 1500) 0,
        NewMsgTransfer "transfer" "channel-7" { denom := "uabc", amount := 50 }
          "abc1alice" "xyz1carol" (NewHeight 1 1500) 0] :=
  have t := Send_twice_same_calls sampleKeeper sampleWorld remoteMsg
    { sendEnabled := fun _ => rfl
      nativeHrp := rfl
      record := fun _ => rfl
      port := rfl
      clientState := fun _ _ => rfl
      sendCoins := fun _ _ _ => rfl
      transfer := fun _ => rfl }
    (by decide)
  ⟨t.2.1, t.2.2.2.1, t.2.2.2.2.1, t.2.2.2.2.2.2 _ (by decide), by decide⟩

end Bech32ics20
